import Mathlib

/-!
Verification of the metadata extraction and code-synthesis
pipeline of the analysis-function library (modules `core/parser.py`,
`core/extractor.py`, `core/scanner.py`, `core/generator.py`, and the output
handling of `widgets/code_generator.py`).

Python strings are modelled as Lean `String`s and every string primitive the
code uses (`split`, `strip`, `startswith`, `in`, `lower`, `title`, `join`,
`replace`) is given an explicit character-list implementation so that proofs
can proceed by structural induction.  The regular expressions of
`parser.py` are hand-compiled to matchers over character lists; they are
written to agree with Python `re` semantics (greedy / lazy groups,
backtracking) on the ASCII inputs the pipeline handles.
-/

namespace Library

/-- ASCII whitespace as recognised by the Python `str.strip()` / `\s` class. -/
def isPySpace (c : Char) : Bool :=
  c = ' ' || c = '\t' || c = '\n' || c = '\r' || c = '\x0b' || c = '\x0c'

/-- Word characters of the regex class `\w` (ASCII scope of this model). -/
def isWordChar (c : Char) : Bool :=
  c.isAlphanum || c = '_'

/-- Characters forming `str.strip()` of a character list. -/
def pyStripList (l : List Char) : List Char :=
  ((l.dropWhile isPySpace).reverse.dropWhile isPySpace).reverse

/-- Python `s.strip()`. -/
def pyStrip (s : String) : String :=
  ⟨pyStripList s.data⟩

/-- Python `len(line) - len(line.lstrip())`: the leading-whitespace count. -/
def indentOf (s : String) : Nat :=
  (s.data.takeWhile isPySpace).length

/-- Split a character list at every newline, keeping empty pieces, like
Python `str.split('\n')`. -/
def splitLinesList : List Char → List (List Char)
  | [] => [[]]
  | c :: rest =>
    if c = '\n' then [] :: splitLinesList rest
    else
      match splitLinesList rest with
      | [] => [[c]]
      | l :: ls => (c :: l) :: ls

/-- Python `s.split('\n')`. -/
def pySplitLines (s : String) : List String :=
  (splitLinesList s.data).map fun l => ⟨l⟩

/-- Python `s.startswith(pre)`. -/
def pyStartsWith (s pre : String) : Bool :=
  pre.data.isPrefixOf s.data

/-- Python `s.endswith(suf)`. -/
def pyEndsWith (s suf : String) : Bool :=
  suf.data.isSuffixOf s.data

/-- Python `pat in s` (substring containment). -/
def containsSub (s pat : String) : Bool :=
  s.data.tails.any fun t => pat.data.isPrefixOf t

/-- Python `s.lower()` (ASCII scope). -/
def pyLower (s : String) : String :=
  ⟨s.data.map Char.toLower⟩

/-- Python `str.title()` on ASCII text: a letter begins upper-case when the
previous character is not a letter, and lower-case otherwise. -/
def pyTitleGo : Bool → List Char → List Char
  | _, [] => []
  | prevAlpha, c :: rest =>
    if c.isAlpha then
      (if prevAlpha then c.toLower else c.toUpper) :: pyTitleGo true rest
    else
      c :: pyTitleGo false rest

/-- Python `s.replace("_", " ").title()`, the default-label construction. -/
def pyTitleLabel (s : String) : String :=
  ⟨pyTitleGo false (s.data.map fun c => if c = '_' then ' ' else c)⟩

/-- Python `sep.join(parts)`. -/
def pyJoin (sep : String) : List String → String
  | [] => ""
  | [x] => x
  | x :: y :: rest => x ++ sep ++ pyJoin sep (y :: rest)

/-- Python `s.replace('\\', '\\\\')`: double every backslash. -/
def escapeBackslash (s : String) : String :=
  ⟨s.data.flatMap fun c => if c = '\\' then ['\\', '\\'] else [c]⟩

/-- Python `s.split(',')`. -/
def splitCommasList : List Char → List (List Char)
  | [] => [[]]
  | c :: rest =>
    if c = ',' then [] :: splitCommasList rest
    else
      match splitCommasList rest with
      | [] => [[c]]
      | l :: ls => (c :: l) :: ls

/-- Python `s.split(',')`. -/
def pySplitCommas (s : String) : List String :=
  (splitCommasList s.data).map fun l => ⟨l⟩

/-- Python `s.strip(chars)` for an explicit character set. -/
def pyStripChars (cs : List Char) (s : String) : String :=
  ⟨((s.data.dropWhile (cs.contains ·)).reverse.dropWhile (cs.contains ·)).reverse⟩

/-! ## Regex matchers

Hand-compiled versions of the regular expressions in `parser.py`.  All call
sites apply them to `line.strip()`, so inputs have no leading or trailing
whitespace; the matchers implement Python `re.match` semantics on such
inputs. -/

/-- Matcher for `\s*:\s*(.+)$`: skip spaces, expect a colon, skip spaces and
return the non-empty remainder. -/
def matchColonValue (l : List Char) : Option (List Char) :=
  match l.dropWhile isPySpace with
  | ':' :: r =>
    let v := r.dropWhile isPySpace
    if v.isEmpty then none else some v
  | _ => none

/-- Matcher for `^(\w+)\s*:\s*(.+)$` (the `Algorithm:` key–value lines). -/
def matchKeyValue (l : List Char) : Option (List Char × List Char) :=
  let key := l.takeWhile isWordChar
  if key.isEmpty then none
  else
    match matchColonValue (l.dropWhile isWordChar) with
    | some v => some (key, v)
    | none => none

/-- Lazy scan for `\((.+?)\)\s*:\s*(.+)$` starting just after the opening
parenthesis: the shortest non-empty content followed by `)` whose remainder
matches `\s*:\s*(.+)$`. -/
def lazyParenGo (acc : List Char) : List Char → Option (List Char × List Char)
  | [] => none
  | c :: rest =>
    if c = ')' && !acc.isEmpty then
      match matchColonValue rest with
      | some v => some (acc.reverse, v)
      | none => lazyParenGo (c :: acc) rest
    else
      lazyParenGo (c :: acc) rest

/-- Greedy scan for `\((.+)\)\s*:\s*(.+)$` starting just after the opening
parenthesis: the longest non-empty content followed by `)` whose remainder
matches `\s*:\s*(.+)$`. -/
def greedyParenGo (acc : List Char) (best : Option (List Char × List Char)) :
    List Char → Option (List Char × List Char)
  | [] => best
  | c :: rest =>
    if c = ')' && !acc.isEmpty then
      let best' :=
        match matchColonValue rest with
        | some v => some (acc.reverse, v)
        | none => best
      greedyParenGo (c :: acc) best' rest
    else
      greedyParenGo (c :: acc) best rest

/-- Matcher for the parameter-definition pattern
`^(\w+)\s*(?:\((.+?)\))?\s*:\s*(.+)$` of `parse_parameters_section`. -/
def matchParamDef (l : List Char) :
    Option (List Char × Option (List Char) × List Char) :=
  let name := l.takeWhile isWordChar
  if name.isEmpty then none
  else
    match (l.dropWhile isWordChar).dropWhile isPySpace with
    | '(' :: r =>
      match lazyParenGo [] r with
      | some (ty, v) => some (name, some ty, v)
      | none => none
    | ':' :: r =>
      let v := r.dropWhile isPySpace
      if v.isEmpty then none else some (name, none, v)
    | _ => none

/-- Attribute keys accepted inside a parameter block. -/
def metaKeys : List String :=
  ["label", "widget", "priority", "options", "min", "max", "step",
   "ignore", "role", "default"]

/-- Matcher for the attribute pattern
`^(label|widget|priority|options|min|max|step|ignore|role|default)\s*:\s*(.+)$`. -/
def matchMetaAttr (l : List Char) : Option (String × List Char) :=
  metaKeys.findSome? fun k =>
    if k.data.isPrefixOf l then
      match matchColonValue (l.drop k.data.length) with
      | some v => some (k, v)
      | none => none
    else
      none

/-- Matcher for the named-return pattern `^(\w+)\s*\((.+)\)\s*:\s*(.+)$`. -/
def matchNamedReturn (l : List Char) :
    Option (List Char × List Char × List Char) :=
  let name := l.takeWhile isWordChar
  if name.isEmpty then none
  else
    match (l.dropWhile isWordChar).dropWhile isPySpace with
    | '(' :: r =>
      match greedyParenGo [] none r with
      | some (ty, v) => some (name, ty, v)
      | none => none
    | _ => none

/-- Matcher for the untyped-return pattern `^([^:]+):\s*(.+)$`. -/
def matchTypeColon (l : List Char) : Option (List Char × List Char) :=
  let t := l.takeWhile (· ≠ ':')
  if t.isEmpty then none
  else
    match l.drop t.length with
    | ':' :: r =>
      let v := r.dropWhile isPySpace
      if v.isEmpty then none else some (t, v)
    | _ => none

/-! ## Python values

The dynamically typed values the pipeline stores and renders: `None`,
booleans, integers, floats, strings and flat lists of those.  A float
carries its `str()` rendering, which is the only aspect of floats the
pipeline observes; the nesting depth of lists is limited to one, all the
option lists and default values of the library being flat. -/

inductive PyScalar where
  | none
  | bool (b : Bool)
  | int (n : Int)
  | float (text : String)
  | str (s : String)
deriving DecidableEq, Repr

inductive PyVal where
  | none
  | bool (b : Bool)
  | int (n : Int)
  | float (text : String)
  | str (s : String)
  | list (xs : List PyScalar)
deriving DecidableEq, Repr

/-- Embed a scalar into the value type. -/
def pyOfScalar : PyScalar → PyVal
  | .none => .none
  | .bool b => .bool b
  | .int n => .int n
  | .float t => .float t
  | .str s => .str s

/-- Python `repr(v)` for scalars (string escaping is out of the modelled
scope: the pipeline never feeds quotes through `repr`). -/
def pyScalarRepr : PyScalar → String
  | .none => "None"
  | .bool b => if b then "True" else "False"
  | .int n => toString n
  | .float t => t
  | .str s => "\x27" ++ s ++ "\x27"

/-- Python `repr(v)`. -/
def pyRepr : PyVal → String
  | .none => "None"
  | .bool b => if b then "True" else "False"
  | .int n => toString n
  | .float t => t
  | .str s => "\x27" ++ s ++ "\x27"
  | .list xs => "[" ++ pyJoin ", " (xs.map pyScalarRepr) ++ "]"

/-- Python `str(v)`: identical to `repr(v)` except on strings. -/
def pyStr : PyVal → String
  | .str s => s
  | v => pyRepr v

/-- Python `str(v)` for scalars: identical to `repr(v)` except that
strings render bare, as in an f-string interpolation. -/
def pyScalarStr : PyScalar → String
  | .str s => s
  | v => pyScalarRepr v

/-! ## Numeric and literal conversions of `_convert_param_meta_value` -/

/-- Digits-only natural-number parse. -/
def parseNatDigits (l : List Char) : Option Nat :=
  if l.isEmpty || !(l.all Char.isDigit) then none
  else some (l.foldl (fun n c => n * 10 + (c.toNat - '0'.toNat)) 0)

/-- Python `int(s)` on already-stripped text: optional sign then digits. -/
def pyParseInt (s : String) : Option Int :=
  match (pyStrip s).data with
  | '-' :: rest => (parseNatDigits rest).map fun n => -(n : Int)
  | '+' :: rest => (parseNatDigits rest).map fun n => (n : Int)
  | rest => (parseNatDigits rest).map fun n => (n : Int)

/-- Shape check for the plain decimal float literals Python `float(s)`
accepts (the modelled scope: sign, digits and one point, at least one
digit). -/
def isFloatShape (l : List Char) : Bool :=
  let body := match l with
    | '-' :: rest => rest
    | '+' :: rest => rest
    | rest => rest
  let intPart := body.takeWhile Char.isDigit
  match body.drop intPart.length with
  | [] => !intPart.isEmpty
  | '.' :: frac => (!intPart.isEmpty || !frac.isEmpty) && frac.all Char.isDigit
  | _ => false

/-- Python `float(s)` in the modelled scope; the value keeps its text. -/
def pyParseFloat (s : String) : Option PyScalar :=
  let t := pyStrip s
  if isFloatShape t.data then some (.float t) else none

/-- Conversion of `min` / `max` / `step` attribute values: float when the
text contains a point, else int, falling back to the raw string. -/
def convNum (value : String) : PyScalar :=
  if containsSub value "." then
    match pyParseFloat value with
    | some v => v
    | Option.none => .str value
  else
    match pyParseInt value with
    | some n => .int n
    | Option.none => .str value

/-- Strip the quote characters the option fallback removes: first single
quotes, then double quotes, from both ends. -/
def stripQuotes (s : String) : String :=
  pyStripChars ['"'] (pyStripChars ['\''] s)

/-- Tokens of a simplified `json.loads` for flat JSON arrays of strings,
integers, decimal numbers, booleans and nulls — the only option lists the
doc comments of the library use.  Modelled scope: flat arrays only.  A
nested array, which Python `json.loads` accepts, is outside the flat
`PyScalar` value model; there this parse fails and `convOptions` falls
through to the comma-split path, diverging from the code. -/
def jsonScalar (l : List Char) : Option PyScalar :=
  let t : String := ⟨pyStripList l⟩
  if t = "true" then some (.bool true)
  else if t = "false" then some (.bool false)
  else if t = "null" then some PyScalar.none
  else
    match t.data with
    | '"' :: rest =>
      if rest ≠ [] && rest.getLast? = some '"' then
        some (.str ⟨rest.dropLast⟩)
      else Option.none
    | _ =>
      match pyParseInt t with
      | some n => some (.int n)
      | Option.none =>
        if containsSub t "." then pyParseFloat t else Option.none

/-- Simplified `json.loads` on a flat array literal of scalars (nested
arrays are outside the modelled scope, see `jsonScalar`). -/
def jsonLoadsList (value : String) : Option (List PyScalar) :=
  match (pyStrip value).data with
  | '[' :: rest =>
    if rest.getLast? = some ']' then
      let inner := rest.dropLast
      if (pyStripList inner).isEmpty then some []
      else (splitCommasList inner).mapM jsonScalar
    else Option.none
  | _ => Option.none

/-- Conversion of an `options` attribute value. -/
def convOptions (value : String) : List PyScalar :=
  let valStr := pyStripChars ['[', ']'] value
  if valStr = "" then []
  else
    let viaJson :=
      if pyStartsWith (pyStrip value) "[" && pyEndsWith (pyStrip value) "]" then
        jsonLoadsList value
      else Option.none
    match viaJson with
    | some xs => xs
    | Option.none =>
      let valueList := (pySplitCommas valStr).map pyStrip
      match valueList.mapM pyParseInt with
      | some ns => ns.map (.int ·)
      | Option.none =>
        match valueList.mapM pyParseFloat with
        | some fs => fs
        | Option.none => valueList.map fun v => .str (stripQuotes v)

/-- Conversion of a `default` attribute value. -/
def convDefault (value : String) : PyScalar :=
  let v := pyStrip value
  if pyLower v = "none" then PyScalar.none
  else if pyLower v = "true" then .bool true
  else if pyLower v = "false" then .bool false
  else if containsSub v "." then
    match pyParseFloat v with
    | some f => f
    | Option.none => .str (stripQuotes v)
  else
    match pyParseInt v with
    | some n => .int n
    | Option.none => .str (stripQuotes v)

/-- Conversion of an `ignore` attribute value. -/
def convIgnore (value : String) : Bool :=
  pyLower (pyStrip value) = "true"

/-! ## Parsed docstring structures -/

/-- Values stored in the `Algorithm:` metadata dictionary: the `imports`
key holds a comma-split list, every other key a scalar string. -/
inductive AlgoVal where
  | str (s : String)
  | list (xs : List String)
deriving DecidableEq, Repr

/-- Metadata attached to one documented parameter (one entry of the
dictionary built by `parse_parameters_section`; an absent field models an
absent dictionary key). -/
structure ParamMeta where
  description : Option String := Option.none
  type : Option String := Option.none
  label : Option String := Option.none
  widget : Option String := Option.none
  priority : Option String := Option.none
  options : Option (List PyScalar) := Option.none
  min : Option PyScalar := Option.none
  max : Option PyScalar := Option.none
  step : Option PyScalar := Option.none
  ignore : Option Bool := Option.none
  role : Option String := Option.none
  default : Option PyScalar := Option.none
deriving DecidableEq, Repr

/-- One entry of the list built by `parse_returns_section` (`name` is
absent for the `type: description` form). -/
structure RetEntry where
  name : Option String := Option.none
  type : String
  description : String
deriving DecidableEq, Repr

/-- Insert-or-update on an insertion-ordered association list, keeping the
original position of an existing key — Python `dict` assignment. -/
def updateA {α : Type} (m : List (String × α)) (k : String) (v : α) :
    List (String × α) :=
  match m with
  | [] => [(k, v)]
  | (k', v') :: rest =>
    if k' = k then (k, v) :: rest else (k', v') :: updateA rest k v

/-- Python `dict.get(k)`. -/
def lookupA {α : Type} (m : List (String × α)) (k : String) : Option α :=
  match m with
  | [] => Option.none
  | (k', v') :: rest => if k' = k then some v' else lookupA rest k

/-- Apply a parsed attribute line to the metadata of the current parameter:
`params[current_param][key] = self._convert_param_meta_value(key, value)`. -/
def setMeta (m : ParamMeta) (key : String) (value : String) : ParamMeta :=
  if key = "label" then { m with label := some value }
  else if key = "widget" then { m with widget := some value }
  else if key = "priority" then { m with priority := some value }
  else if key = "options" then { m with options := some (convOptions value) }
  else if key = "min" then { m with min := some (convNum value) }
  else if key = "max" then { m with max := some (convNum value) }
  else if key = "step" then { m with step := some (convNum value) }
  else if key = "ignore" then { m with ignore := some (convIgnore value) }
  else if key = "role" then { m with role := some value }
  else if key = "default" then { m with default := some (convDefault value) }
  else m

/-! ## DocstringParser (`core/parser.py`) -/

namespace DocstringParser

/-- Description lines: every non-empty stripped line before the first
section header (the loop of `parse_description`). -/
def parseDescLines : List String → List String
  | [] => []
  | line :: rest =>
    let sl := pyStrip line
    if pyStartsWith sl "Algorithm:" || pyStartsWith sl "Parameters:" ||
        pyStartsWith sl "Returns:" || pyStartsWith sl "Example:" then []
    else if sl = "" then parseDescLines rest
    else sl :: parseDescLines rest

/-- `DocstringParser.parse_description`. -/
def parseDescription (s : String) : String :=
  if s = "" then ""
  else pyStrip (pyJoin "\n" (parseDescLines (pySplitLines s)))

/-- Comma-split of an `imports` value:
`[imp.strip() for imp in value.split(',') if imp.strip()]`. -/
def splitImportsVal (value : String) : List String :=
  ((pySplitCommas value).map pyStrip).filter (· ≠ "")

/-- Line loop of `parse_algorithm_section`. -/
def parseAlgoLines (md : List (String × AlgoVal)) (inSec : Bool) :
    List String → List (String × AlgoVal)
  | [] => md
  | line :: rest =>
    let sl := pyStrip line
    if sl = "" then parseAlgoLines md inSec rest
    else if pyStartsWith sl "Algorithm:" then parseAlgoLines md true rest
    else if inSec then
      if pyStartsWith sl "Parameters:" || pyStartsWith sl "Returns:" ||
          pyStartsWith sl "Example:" then
        md
      else
        match matchKeyValue sl.data with
        | some (kL, vL) =>
          let k : String := ⟨kL⟩
          let v : String := ⟨vL⟩
          let av := if k = "imports" then AlgoVal.list (splitImportsVal v)
                    else AlgoVal.str v
          parseAlgoLines (updateA md k av) inSec rest
        | Option.none => parseAlgoLines md inSec rest
    else
      parseAlgoLines md inSec rest

/-- `DocstringParser.parse_algorithm_section`. -/
def parseAlgorithmSection (s : String) : List (String × AlgoVal) :=
  if s = "" then [] else parseAlgoLines [] false (pySplitLines s)

/-- Mutable state of the `parse_parameters_section` loop. -/
structure ParamsState where
  params : List (String × ParamMeta)
  inSection : Bool
  current : Option String
  paramIndent : Option Nat

/-- Initial state of the loop. -/
def paramsInit : ParamsState :=
  ⟨[], false, Option.none, Option.none⟩

/-- Line loop of `parse_parameters_section`.  Note the section-header test
for `Returns:` / `Example:` / `Algorithm:` breaks the loop whether or not a
`Parameters:` line has been seen, exactly as in the source. -/
def parseParamsLines (st : ParamsState) : List String → List (String × ParamMeta)
  | [] => st.params
  | line :: rest =>
    let stripped := pyStrip line
    if stripped = "" then parseParamsLines st rest
    else
      let indent := indentOf line
      if pyStartsWith stripped "Parameters:" then
        parseParamsLines { st with inSection := true } rest
      else if pyStartsWith stripped "Returns:" || pyStartsWith stripped "Example:" ||
          pyStartsWith stripped "Algorithm:" then
        st.params
      else if st.inSection then
        let matched := matchParamDef stripped.data
        let isParamDef :=
          match matched, st.paramIndent with
          | some _, Option.none => true
          | some _, some pi => decide (indent ≤ pi)
          | Option.none, _ => false
        if isParamDef then
          match matched with
          | some (nameL, tyL?, descL) =>
            let name : String := ⟨nameL⟩
            let meta : ParamMeta :=
              match tyL? with
              | some tyL => { description := some ⟨descL⟩, type := some (⟨tyL⟩ : String) }
              | Option.none => { description := some ⟨descL⟩ }
            parseParamsLines
              { st with
                params := updateA st.params name meta,
                current := some name,
                paramIndent := some (st.paramIndent.getD indent) } rest
          | Option.none => parseParamsLines st rest
        else
          match st.current with
          | some cur =>
            match matchMetaAttr stripped.data with
            | some (key, valL) =>
              let updated :=
                match lookupA st.params cur with
                | some pm => updateA st.params cur (setMeta pm key ⟨valL⟩)
                | Option.none => st.params
              parseParamsLines { st with params := updated } rest
            | Option.none =>
              let updated :=
                match lookupA st.params cur with
                | some pm =>
                  updateA st.params cur
                    { pm with description := some ((pm.description.getD "") ++ " " ++ stripped) }
                | Option.none => st.params
              parseParamsLines { st with params := updated } rest
          | Option.none => parseParamsLines st rest
      else
        parseParamsLines st rest

/-- `DocstringParser.parse_parameters_section`. -/
def parseParametersSection (s : String) : List (String × ParamMeta) :=
  if s = "" then [] else parseParamsLines paramsInit (pySplitLines s)

/-- Line loop of `parse_returns_section`. -/
def parseReturnsLines (acc : List RetEntry) (inSec : Bool) :
    List String → List RetEntry
  | [] => acc
  | line :: rest =>
    let sl := pyStrip line
    if sl = "" then parseReturnsLines acc inSec rest
    else if pyStartsWith sl "Returns:" then parseReturnsLines acc true rest
    else if inSec then
      if pyStartsWith sl "Example:" || pyStartsWith sl "Algorithm:" ||
          pyStartsWith sl "Parameters:" then
        acc
      else if sl = "None" then parseReturnsLines acc inSec rest
      else
        match matchNamedReturn sl.data with
        | some (n, t, d) =>
          parseReturnsLines
            (acc ++ [{ name := some (pyStrip ⟨n⟩), type := pyStrip ⟨t⟩,
                       description := pyStrip ⟨d⟩ }]) inSec rest
        | Option.none =>
          match matchTypeColon sl.data with
          | some (t, d) =>
            parseReturnsLines
              (acc ++ [{ name := Option.none, type := pyStrip ⟨t⟩,
                         description := pyStrip ⟨d⟩ }]) inSec rest
          | Option.none => parseReturnsLines acc inSec rest
    else
      parseReturnsLines acc inSec rest

/-- `DocstringParser.parse_returns_section`. -/
def parseReturnsSection (s : String) : List RetEntry :=
  if s = "" then [] else parseReturnsLines [] false (pySplitLines s)

/-- Result of `DocstringParser.parse`.  For an empty docstring the Python
method returns an empty dictionary; since all consumers read it through
`.get` with empty defaults, that case is modelled by the record whose four
sections are empty. -/
structure ParsedDoc where
  description : String
  algorithm : List (String × AlgoVal)
  parameters : List (String × ParamMeta)
  returns : List RetEntry
deriving DecidableEq, Repr

/-- `DocstringParser.parse`. -/
def parse (s : String) : ParsedDoc :=
  if s = "" then ⟨"", [], [], []⟩
  else
    { description := parseDescription s,
      algorithm := parseAlgorithmSection s,
      parameters := parseParametersSection s,
      returns := parseReturnsSection s }

/-- `DocstringParser.has_algorithm_section`. -/
def hasAlgorithmSection (s : String) : Bool :=
  containsSub s "Algorithm:"

end DocstringParser

/-! ## Data models (`core/models.py`) -/

/-- `models.AlgorithmParameter` (the `ParameterSpec` of the spec).  The
`default` field uses `PyVal.none` for Python `None`. -/
structure AlgorithmParameter where
  name : String
  type : String := "str"
  default : PyVal := PyVal.none
  label : String := ""
  description : String := ""
  widget : Option String := Option.none
  options : Option (List PyScalar) := Option.none
  min : Option PyScalar := Option.none
  max : Option PyScalar := Option.none
  step : Option PyScalar := Option.none
  priority : String := "non-critical"
  role : String := "parameter"
deriving DecidableEq, Repr

/-- `models.AlgorithmPort` (the `PortSpec` of the spec). -/
structure AlgorithmPort where
  name : String
  type : String := "DataFrame"
  description : String := ""
deriving DecidableEq, Repr

/-- `models.AlgorithmMetadata` (the `CatalogEntry` of the spec). -/
structure AlgorithmMetadata where
  id : String
  name : String
  category : String
  description : String := ""
  prompt : String := ""
  template : String := ""
  imports : List String := []
  parameters : List AlgorithmParameter := []
  inputs : List AlgorithmPort := []
  outputs : List AlgorithmPort := []
  nodeType : String := "generic"
deriving DecidableEq, Repr

/-! ## Reflection boundary

The extractor and scanner read functions through `inspect`.  A function is
modelled by its observable reflection data: ordered signature parameters
(name, annotation, default), the cleaned docstring `inspect.getdoc`
returns, the source text, and the return annotation.  An annotation is
modelled by its resolved `__name__` (the pipeline only ever meets named
annotations such as `int`, `str`, `list` or `pd.DataFrame`, whose resolved
name is `DataFrame`). -/

/-- One `inspect.Parameter`: `annot = Option.none` models
`Parameter.empty` (no annotation), `default = Option.none` models a
parameter without a default, and `default = some PyVal.none` a literal
`None` default. -/
structure SigParam where
  name : String
  annot : Option String := Option.none
  default : Option PyVal := Option.none
deriving DecidableEq, Repr

/-- A return annotation: a plain named type or a `Tuple[...]` of named
types (the two shapes `extract_outputs_from_signature` distinguishes with
`typing.get_origin`). -/
inductive RetAnn where
  | simple (t : String)
  | tup (ts : List String)
deriving DecidableEq, Repr

/-- Reflection data of one member function. -/
structure PyFunc where
  name : String
  definedHere : Bool := true
  sig : List SigParam := []
  docstring : String := ""
  source : String := ""
  retAnn : Option RetAnn := Option.none
deriving DecidableEq, Repr

/-- A leaf module: its member functions in `inspect.getmembers` order and
its source text (read for import extraction). -/
structure PyModule where
  name : String := ""
  funcs : List PyFunc := []
  source : String := ""
deriving DecidableEq, Repr

/-! ## CodeExtractor (`core/extractor.py`) -/

namespace CodeExtractor

/-- Override entries accepted by `extract_parameters`; an absent field
models an absent dictionary key. -/
structure Override where
  type : Option String := Option.none
  default : Option PyVal := Option.none
  label : Option String := Option.none
  description : Option String := Option.none
  widget : Option String := Option.none
  options : Option (List PyScalar) := Option.none
  min : Option PyScalar := Option.none
  max : Option PyScalar := Option.none
  step : Option PyScalar := Option.none
  priority : Option String := Option.none
  role : Option String := Option.none
deriving DecidableEq, Repr

/-- Doc-comment branch of `_infer_type`: the first matching keyword of the
lower-cased declared type wins. -/
def inferTypeDoc (docType : String) : Option String :=
  if docType = "" then Option.none
  else
    let dl := pyLower docType
    if containsSub dl "list" then some "list"
    else if containsSub dl "int" then some "int"
    else if containsSub dl "float" then some "float"
    else if containsSub dl "bool" then some "bool"
    else if containsSub dl "dataframe" then some "DataFrame"
    else Option.none

/-- Annotation branch of `_infer_type`: builtin annotations map to their
kind keyword, any other named annotation to its `__name__`. -/
def inferTypeAnn (p : SigParam) : Option String :=
  match p.annot with
  | Option.none => Option.none
  | some a =>
    if a = "int" then some "int"
    else if a = "float" then some "float"
    else if a = "bool" then some "bool"
    else if a = "list" then some "list"
    else if a = "tuple" then some "tuple"
    else some a

/-- Default-value branch of `_infer_type`. -/
def inferTypeDefault (p : SigParam) : Option String :=
  match p.default with
  | some v =>
    if v = PyVal.none then Option.none
    else
      match v with
      | .int _ => some "int"
      | .float _ => some "float"
      | .bool _ => some "bool"
      | .list _ => some "list"
      | _ => Option.none
  | Option.none => Option.none

/-- `CodeExtractor._infer_type`: docstring type beats annotation beats
default-value type beats `"str"`. -/
def inferType (p : SigParam) (info : ParamMeta) : String :=
  match inferTypeDoc (info.type.getD "") with
  | some t => t
  | Option.none =>
    match inferTypeAnn p with
    | some t => t
    | Option.none =>
      match inferTypeDefault p with
      | some t => t
      | Option.none => "str"

/-- `CodeExtractor._get_default_value`: the signature default when present,
else the kind-appropriate empty value, else `None`. -/
def getDefaultValue (p : SigParam) (paramType : String) : PyVal :=
  match p.default with
  | some v => v
  | Option.none =>
    if paramType = "int" then .int 0
    else if paramType = "float" then .float "0.0"
    else if paramType = "bool" then .bool false
    else if paramType = "list" then .list []
    else if paramType = "str" then .str ""
    else PyVal.none

/-- `CodeExtractor._infer_role`. -/
def inferRole (name : String) (paramType : String) (info : ParamMeta) : String :=
  let docRole := info.role.getD ""
  if docRole ≠ "" then docRole
  else if name = "df" || containsSub (pyLower paramType) "dataframe" then "input"
  else if name = "output_var" then "output"
  else "parameter"

/-- `CodeExtractor.infer_widget_type`. -/
def inferWidgetType (name : String) (paramType : String)
    (options : Option (List PyScalar)) : String :=
  if (match options with | some (_ :: _) => true | _ => false) then "select"
  else
    let nl := pyLower name
    if containsSub nl "filepath" || containsSub nl "file_path" then "file-selector"
    else if containsSub nl "columns" || containsSub nl "column" then "column-selector"
    else if containsSub nl "color" then "color-picker"
    else if paramType = "bool" then "checkbox"
    else if paramType = "int" || paramType = "float" then "input-number"
    else "input-text"

/-- Loop body of `extract_parameters` for one signature parameter: `none`
when the doc comment sets `ignore`, else the assembled
`AlgorithmParameter`. -/
def extractOne (p : SigParam) (info : ParamMeta) (ov : Override) :
    Option AlgorithmParameter :=
  if info.ignore.getD false then Option.none
  else
    let paramType := inferType p info
    let defaultVal := getDefaultValue p paramType
    let role := inferRole p.name paramType info
    let priority0 := info.priority.getD ""
    let priority :=
      if priority0 = "" then
        if defaultVal = PyVal.none then "critical" else "non-critical"
      else priority0
    let options :=
      match ov.options with
      | some o => some o
      | Option.none => info.options
    let widget :=
      match ov.widget with
      | some w => w
      | Option.none =>
        match info.widget with
        | some w => w
        | Option.none => inferWidgetType p.name paramType options
    some
      { name := p.name,
        type := ov.type.getD paramType,
        default :=
          match ov.default with
          | some v => v
          | Option.none =>
            match info.default with
            | some v => pyOfScalar v
            | Option.none => defaultVal,
        label := ov.label.getD (info.label.getD (pyTitleLabel p.name)),
        description := ov.description.getD (info.description.getD ("Parameter " ++ p.name)),
        widget := some widget,
        options := options,
        min := (match ov.min with | some v => some v | Option.none => info.min),
        max := (match ov.max with | some v => some v | Option.none => info.max),
        step := (match ov.step with | some v => some v | Option.none => info.step),
        priority := ov.priority.getD priority,
        role := ov.role.getD role }

/-- `CodeExtractor.extract_parameters`. -/
def extractParameters (sig : List SigParam)
    (docParams : List (String × ParamMeta))
    (overrides : List (String × Override)) : List AlgorithmParameter :=
  sig.filterMap fun p =>
    extractOne p ((lookupA docParams p.name).getD {}) ((lookupA overrides p.name).getD {})

/-- Substring test of `extract_outputs_from_signature.is_dataframe_type`
on a named annotation. -/
def isDataframeType (t : String) : Bool :=
  containsSub t "DataFrame"

/-- Positional output ports of a tuple return annotation. -/
def tupOutputs (i : Nat) : List String → List AlgorithmPort
  | [] => []
  | t :: ts =>
    if isDataframeType t then
      { name := "df_out_" ++ toString (i + 1), type := "DataFrame" } :: tupOutputs (i + 1) ts
    else
      tupOutputs (i + 1) ts

/-- `CodeExtractor.extract_outputs_from_signature`. -/
def extractOutputsFromSig (ret : Option RetAnn) : List AlgorithmPort :=
  match ret with
  | Option.none => []
  | some (.simple t) =>
    if isDataframeType t then [{ name := "df_out", type := "DataFrame" }] else []
  | some (.tup ts) => tupOutputs 0 ts

/-- Declaration strings contributed by one source line, modelling the
`ast.Import` / `ast.ImportFrom` handling of `extract_imports` (modelled
scope: straight-line single-line import statements). -/
def importLineToDecls (line : String) : List String :=
  let sl := pyStrip line
  if pyStartsWith sl "import " then
    ((pySplitCommas ⟨sl.data.drop "import ".data.length⟩).map pyStrip).filterMap fun part =>
      if part = "" then Option.none
      else some ("import " ++ part)
  else if pyStartsWith sl "from " then
    let rest : String := ⟨sl.data.drop "from ".data.length⟩
    let moduleChars := rest.data.takeWhile (fun c => !isPySpace c)
    let afterModule : String := ⟨(rest.data.drop moduleChars.length).dropWhile isPySpace⟩
    if pyStartsWith afterModule "import " then
      ((pySplitCommas ⟨afterModule.data.drop "import ".data.length⟩).map pyStrip).filterMap
        fun part =>
          if part = "" then Option.none
          else some ("from " ++ (⟨moduleChars⟩ : String) ++ " import " ++ part)
    else []
  else []

/-- `CodeExtractor.extract_imports` (line-based model of the AST walk). -/
def extractImports (source : String) : List String :=
  (pySplitLines source).flatMap importLineToDecls

end CodeExtractor

/-! ## LibraryScanner (`core/scanner.py`) -/

namespace LibraryScanner

/-- `LibraryScanner._infer_outputs`: docstring `Returns:` entries win, else
ports are inferred from the return annotation. -/
def inferOutputs (f : PyFunc) (returnsMeta : List RetEntry) : List AlgorithmPort :=
  if returnsMeta ≠ [] then
    returnsMeta.map fun r =>
      { name := r.name.getD "output", type := r.type, description := r.description }
  else
    CodeExtractor.extractOutputsFromSig f.retAnn

/-- `LibraryScanner.create_metadata_from_func`: `none` when the docstring
is missing or has no `Algorithm:` block. -/
def createMetadataFromFunc (f : PyFunc) (module? : Option PyModule) :
    Option AlgorithmMetadata :=
  let doc := f.docstring
  if doc = "" || !DocstringParser.hasAlgorithmSection doc then Option.none
  else
    let parsed := DocstringParser.parse doc
    let allParams := CodeExtractor.extractParameters f.sig parsed.parameters []
    let inputs := (allParams.filter fun p => p.role = "input").map fun p =>
      ({ name := p.name, type := p.type, description := p.description } : AlgorithmPort)
    let parameters := allParams.filter fun p => p.role ≠ "input"
    let imports0 :=
      match lookupA parsed.algorithm "imports" with
      | some (.list l) => l
      | _ => []
    let imports :=
      if imports0 = [] then
        match module? with
        | some m => CodeExtractor.extractImports m.source
        | Option.none => []
      else imports0
    let outputs := inferOutputs f parsed.returns
    let algoName :=
      match lookupA parsed.algorithm "name" with
      | some (.str s) => s
      | _ => f.name
    let template := "# " ++ algoName ++ "\n" ++ f.source
    some
      { id := f.name,
        name := algoName,
        category :=
          (match lookupA parsed.algorithm "category" with
           | some (.str s) => s
           | _ => "uncategorized"),
        description := parsed.description,
        prompt :=
          (match lookupA parsed.algorithm "prompt" with
           | some (.str s) => s
           | _ => ""),
        template := template,
        imports := imports,
        parameters := parameters,
        inputs := inputs,
        outputs := outputs,
        nodeType := if f.name = "load_csv" then "csv_loader" else "generic" }

/-- `LibraryScanner.scan_module`: member functions defined in the module,
not underscore-prefixed, that carry an `Algorithm:` block. -/
def scanModule (m : PyModule) : List AlgorithmMetadata :=
  m.funcs.filterMap fun f =>
    if pyStartsWith f.name "_" then Option.none
    else if !f.definedHere then Option.none
    else createMetadataFromFunc f (some m)

/-- Append an entry to the list of its category (creating the category at the
end of the ordered dictionary when new). -/
def addToCategory (result : List (String × List AlgorithmMetadata))
    (cat : String) (algo : AlgorithmMetadata) :
    List (String × List AlgorithmMetadata) :=
  match result with
  | [] => [(cat, [algo])]
  | (c, l) :: rest =>
    if c = cat then (c, l ++ [algo]) :: rest
    else (c, l) :: addToCategory rest cat algo

/-- One iteration of the dedup loop of `scan`: skip an id already in the
cache, otherwise record the entry in the cache and its category list. -/
def scanStep (st : List AlgorithmMetadata × List (String × List AlgorithmMetadata))
    (algo : AlgorithmMetadata) :
    List AlgorithmMetadata × List (String × List AlgorithmMetadata) :=
  if st.1.any fun a => a.id = algo.id then st
  else (st.1 ++ [algo], addToCategory st.2 algo.category algo)

/-- `LibraryScanner.scan` over the modules found in traversal order,
returning the category-keyed catalog. -/
def scan (modules : List PyModule) : List (String × List AlgorithmMetadata) :=
  (modules.foldl (fun st m => (scanModule m).foldl scanStep st) ([], [])).2

/-- All entries of a catalog: the union of its category lists. -/
def catalogEntries (result : List (String × List AlgorithmMetadata)) :
    List AlgorithmMetadata :=
  result.flatMap Prod.snd

end LibraryScanner

/-! ## CodeGenerator (`core/generator.py`) -/

namespace CodeGenerator

/-- `CodeGenerator._normalize_type`. -/
def normalizeType (t : String) : String :=
  if t = "DataFrame" then "pd.DataFrame" else t

/-- The truthiness test `param.default is not None and param.default != ""`
that decides whether `_build_signature` renders a default. -/
def hasSigDefault (p : AlgorithmParameter) : Bool :=
  p.default ≠ PyVal.none && p.default ≠ PyVal.str ""

/-- Signature text of one parameter. -/
def sigArgOfParam (p : AlgorithmParameter) : String :=
  if hasSigDefault p then
    match p.default with
    | .str s => p.name ++ ": " ++ normalizeType p.type ++ " = \x27" ++ s ++ "\x27"
    | d => p.name ++ ": " ++ normalizeType p.type ++ " = " ++ pyStr d
  else
    p.name ++ ": " ++ normalizeType p.type

/-- `CodeGenerator._build_signature`: inputs first, then parameters without
a rendered default, then the rest. -/
def buildSignature (m : AlgorithmMetadata) : String :=
  let inputArgs := m.inputs.map fun i => i.name ++ ": " ++ normalizeType i.type
  let required := m.parameters.filter fun p => !hasSigDefault p
  let optional := m.parameters.filter fun p => hasSigDefault p
  pyJoin ", " (inputArgs ++ (required ++ optional).map sigArgOfParam)

/-- `CodeGenerator._build_return_annotation`. -/
def buildReturnAnn (outputs : List AlgorithmPort) : String :=
  match outputs with
  | [] => "-> None"
  | [o] => "-> Optional[" ++ normalizeType o.type ++ "]"
  | os => "-> Tuple[" ++ pyJoin ", " (os.map fun o => "Optional[" ++ normalizeType o.type ++ "]") ++ "]"

/-- Simplified `json.dumps` for the flat option lists the pipeline stores
(string escaping out of modelled scope). -/
def jsonDumpScalar : PyScalar → String
  | .none => "null"
  | .bool b => if b then "true" else "false"
  | .int n => toString n
  | .float t => t
  | .str s => "\"" ++ s ++ "\""

/-- Simplified `json.dumps` on a list. -/
def jsonDumps (xs : List PyScalar) : String :=
  "[" ++ pyJoin ", " (xs.map jsonDumpScalar) ++ "]"

/-- Attribute lines of one parameter in the rebuilt doc comment. -/
def docstringParamLines (p : AlgorithmParameter) : List String :=
  [p.name ++ " (" ++ normalizeType p.type ++ "): " ++ p.description]
  ++ (if p.label ≠ "" then ["    label: " ++ p.label] else [])
  ++ (match p.widget with
      | some w => if w ≠ "" then ["    widget: " ++ w] else []
      | Option.none => [])
  ++ (match p.options with
      | some (x :: xs) => ["    options: " ++ jsonDumps (x :: xs)]
      | _ => [])
  ++ (match p.min with
      | some v => ["    min: " ++ pyScalarStr v]
      | Option.none => [])
  ++ (match p.max with
      | some v => ["    max: " ++ pyScalarStr v]
      | Option.none => [])
  ++ (match p.step with
      | some v => ["    step: " ++ pyScalarStr v]
      | Option.none => [])
  ++ (if p.priority ≠ "" then ["    priority: " ++ p.priority] else [])
  ++ ["    role: " ++ p.role]

/-- The `lines` list assembled by `_build_docstring`. -/
def buildDocstringLines (m : AlgorithmMetadata) : List String :=
  [m.description, "", "Algorithm:", "    name: " ++ m.name, "    category: " ++ m.category]
  ++ (if m.prompt ≠ "" then ["    prompt: " ++ m.prompt] else [])
  ++ ["", "Parameters:"]
  ++ (m.inputs.flatMap fun inp =>
      [inp.name ++ " (" ++ normalizeType inp.type ++ "): "
         ++ (if inp.description ≠ "" then inp.description else "Input DataFrame"),
       "    role: input"])
  ++ (m.parameters.flatMap docstringParamLines)
  ++ ["", "Returns:"]
  ++ (if m.outputs.isEmpty then ["None"]
      else m.outputs.map fun o =>
        o.name ++ " (" ++ normalizeType o.type ++ "): "
          ++ (if o.description ≠ "" then o.description else "Result"))

/-- `CodeGenerator._build_docstring`: the line list joined with
`"\n    "`. -/
def buildDocstring (m : AlgorithmMetadata) : String :=
  pyJoin "\n    " (buildDocstringLines m)

/-- Membership condition of `_process_imports` for one typing name. -/
def wantsTypingName (m : AlgorithmMetadata) (t : String) : Bool :=
  (t = "Optional" && m.outputs.length > 0)
  || (t = "Tuple" && m.outputs.length > 1)
  || m.parameters.any fun p => containsSub p.type t

/-- `CodeGenerator._process_imports`: prepend pandas when missing, then
append the needed `from typing import ...` lines in sorted name order. -/
def processImports (m : AlgorithmMetadata) : List String :=
  let imports := m.imports
  let imports :=
    if imports.any (fun i => containsSub i "pandas") then imports
    else "import pandas as pd" :: imports
  (["Any", "Dict", "List", "Optional", "Tuple"].filter (wantsTypingName m)).foldl
    (fun imps t =>
      if imps.any (fun i => containsSub i ("import " ++ t) || containsSub i (", " ++ t)) then
        imps
      else imps ++ ["from typing import " ++ t])
    imports

/-- `CodeGenerator._generate_default_body`. -/
def generateDefaultBody (m : AlgorithmMetadata) : String :=
  if m.outputs.isEmpty then "    # Implementation\n    pass"
  else if m.outputs.length = 1 then
    match m.inputs with
    | i :: _ => "    # Implementation\n    return " ++ i.name
    | [] => "    # Implementation\n    return pd.DataFrame()"
  else
    "    # Implementation\n    return "
      ++ pyJoin ", " (m.outputs.map fun _ => "pd.DataFrame()")

/-- Python `dict.fromkeys` deduplication (keep the first occurrence),
written with an explicit seen-set accumulator. -/
def dedupKeepFirstGo (seen : List String) : List String → List String
  | [] => []
  | x :: rest =>
    if seen.contains x then dedupKeepFirstGo seen rest
    else x :: dedupKeepFirstGo (x :: seen) rest

/-- Python `dict.fromkeys` deduplication: keep the first occurrence. -/
def dedupKeepFirst (l : List String) : List String :=
  dedupKeepFirstGo [] l

/-- `CodeGenerator.generate_function_code`.  The Python method assigns the
merged import list back onto `metadata.imports` when `existing_code` is
given; the returned pair carries the emitted source text together with the
metadata object as it stands after the call. -/
def generateFunctionCode (m0 : AlgorithmMetadata) (existingBody : Option String)
    (existingCode : Option String) : String × AlgorithmMetadata :=
  let m :=
    match existingCode with
    | some code =>
      { m0 with imports := dedupKeepFirst (CodeExtractor.extractImports code ++ m0.imports) }
    | Option.none => m0
  let importsStr := pyJoin "\n" (processImports m)
  let sigStr := buildSignature m
  let retAnn := buildReturnAnn m.outputs
  let docStr := buildDocstring m
  let bodyStr :=
    match existingBody with
    | some b => if b ≠ "" then b else generateDefaultBody m
    | Option.none => generateDefaultBody m
  let code :=
    importsStr ++ "\n\ndef " ++ m.id ++ "(" ++ sigStr ++ ") " ++ retAnn
      ++ ":\n    \"\"\"\n    " ++ docStr ++ "\n    \"\"\"\n" ++ bodyStr ++ "\n"
  (code, m)

/-- Lookup into the `all_params` dictionary of `_build_call_args`: inputs
are written after parameters, so an input with a clashing name wins, and
within each list the later entry wins. -/
def lookupAllParams (m : AlgorithmMetadata) (name : String) :
    Option AlgorithmParameter :=
  match m.inputs.reverse.find? fun i => i.name = name with
  | some i => some { name := i.name, type := i.type, role := "input" }
  | Option.none => m.parameters.reverse.find? fun p => p.name = name

/-- The file-selector test of `_format_value`:
`param_def and param_def.widget == "file-selector"`. -/
def isFileSelector (paramDef : Option AlgorithmParameter) : Bool :=
  match paramDef with
  | some pd => pd.widget == some "file-selector"
  | Option.none => false

/-- The string branch of `_format_value`, applied to `str(val).strip()`:
bracket-shaped literals and the bare `None` pass through; everything else
is quoted, after backslash escaping for file-selector parameters. -/
def formatValueStr (valStr : String) (paramDef : Option AlgorithmParameter) : String :=
  if (pyStartsWith valStr "[" && pyEndsWith valStr "]")
      || (pyStartsWith valStr "\x7b" && pyEndsWith valStr "\x7d")
      || (pyStartsWith valStr "(" && pyEndsWith valStr ")") then
    valStr
  else if valStr = "None" then "None"
  else
    let valStr := if isFileSelector paramDef then escapeBackslash valStr else valStr
    "\x27" ++ valStr ++ "\x27"

/-- `CodeGenerator._format_value`. -/
def formatValue (val : PyVal) (paramDef : Option AlgorithmParameter) : String :=
  match val with
  | .bool b => if b then "True" else "False"
  | .int n => toString n
  | .float t => t
  | v => formatValueStr (pyStrip (pyStr v)) paramDef

/-- `CodeGenerator._build_call_args`: bound values whose parameter resolves
to the `input` role are spliced verbatim, all others go through
`_format_value`. -/
def buildCallArgs (m : AlgorithmMetadata) (params : List (String × PyVal)) :
    List String :=
  params.map fun nv =>
    let paramDef := lookupAllParams m nv.1
    let isDf : Bool :=
      match paramDef with
      | some p => p.role == "input"
      | Option.none => false
    if isDf then nv.1 ++ "=" ++ pyStr nv.2
    else nv.1 ++ "=" ++ formatValue nv.2 paramDef

/-- `CodeGenerator.generate_call_code`. -/
def generateCallCode (m : AlgorithmMetadata) (params : List (String × PyVal))
    (outputVar : Option String) : String :=
  let importStr := if m.imports.isEmpty then "" else pyJoin "\n" m.imports ++ "\n"
  let code := importStr ++ "# " ++ m.name ++ "\n" ++ m.template ++ "\n"
  let callExpr := m.id ++ "(" ++ pyJoin ", " (buildCallArgs m params) ++ ")"
  match outputVar with
  | some v => if v ≠ "" then code ++ v ++ " = " ++ callExpr ++ "\n" ++ v else code ++ callExpr
  | Option.none => code ++ callExpr

/-- The text prefix (import lines, comment, template) of the emitted call
code, as assembled by `generate_call_code` before the call line. -/
def callCodePrefix (m : AlgorithmMetadata) : String :=
  (if m.imports.isEmpty then "" else pyJoin "\n" m.imports ++ "\n")
    ++ "# " ++ m.name ++ "\n" ++ m.template ++ "\n"

/-- The call expression of the emitted call code. -/
def callExprOf (m : AlgorithmMetadata) (params : List (String × PyVal)) : String :=
  m.id ++ "(" ++ pyJoin ", " (buildCallArgs m params) ++ ")"

/-! ### Round-trip model

`generate_function_code` emits a def whose signature is the text of
`_build_signature` and whose doc comment is the text of
`_build_docstring`.  Re-running the extraction pipeline on that def reads
the signature back through `inspect.signature` and the doc comment back
through `inspect.getdoc` + `DocstringParser`. -/

/-- Resolution of a written annotation text to the `__name__` the
re-extraction sees: the emitted text `pd.DataFrame` resolves to the pandas
class named `DataFrame`; every other annotation the generator emits is a
plain name resolving to itself. -/
def writtenAnnName (t : String) : String :=
  if t = "pd.DataFrame" then "DataFrame" else t

/-- Model of `inspect.signature` applied to the emitted def: the parameters
written by `_build_signature`, in its order — inputs, then parameters
without a rendered default, then the rest — with annotation and default
recovered from the written text. -/
def generatedSigParams (m : AlgorithmMetadata) : List SigParam :=
  (m.inputs.map fun i =>
    ({ name := i.name, annot := some (writtenAnnName (normalizeType i.type)) } : SigParam))
  ++ ((m.parameters.filter fun p => !hasSigDefault p)
        ++ m.parameters.filter fun p => hasSigDefault p).map fun p =>
      ({ name := p.name,
         annot := some (writtenAnnName (normalizeType p.type)),
         default := if hasSigDefault p then some p.default else Option.none } : SigParam)

/-- Re-extraction of the regenerated definition: parse the emitted doc
comment and extract over the emitted signature.  (`inspect.getdoc` strips
the uniform extra indentation of the embedded doc comment; the line-based
parsers are insensitive to that uniform shift, so the parse input is the
`_build_docstring` text itself.) -/
def reExtractParams (m : AlgorithmMetadata) : List AlgorithmParameter :=
  CodeExtractor.extractParameters (generatedSigParams m)
    (DocstringParser.parseParametersSection (buildDocstring m)) []

/-- Name–kind pairs of a parameter list. -/
def nameKindsOf (ps : List AlgorithmParameter) : List (String × String) :=
  ps.map fun p => (p.name, p.type)

/-- Name–kind pairs of the original entry in the generator signature
order: inputs first, then parameters without a rendered default, then the
rest. -/
def generatorOrderNameKinds (m : AlgorithmMetadata) : List (String × String) :=
  (m.inputs.map fun i => (i.name, i.type))
  ++ ((m.parameters.filter fun p => !hasSigDefault p)
        ++ m.parameters.filter fun p => hasSigDefault p).map fun p => (p.name, p.type)

/-- Name–kind pairs of the original entry in its own order: inputs then
parameters. -/
def entryNameKinds (m : AlgorithmMetadata) : List (String × String) :=
  (m.inputs.map fun i => (i.name, i.type)) ++ m.parameters.map fun p => (p.name, p.type)

end CodeGenerator

/-! ## Output-variable handling of the widget code generator
(`widgets/code_generator.py`, `generate_code` lines handling
`output_vars`) -/

namespace WidgetCodeGen

/-- Assembly of the emitted text from the already-built prefix (imports and
comment), the call expression and the collected output-variable names:
one name is assigned and redisplayed, several names tuple-unpack the call
and the first is redisplayed, no name leaves the bare call. -/
def outputCode (codePrefix : String) (callExpr : String)
    (outputVars : List String) : String :=
  match outputVars with
  | [] => codePrefix ++ callExpr
  | [v] => codePrefix ++ v ++ " = " ++ callExpr ++ "\n" ++ v
  | v :: vs => codePrefix ++ pyJoin ", " (v :: vs) ++ " = " ++ callExpr ++ "\n" ++ v

end WidgetCodeGen

/-! ## Statement helpers -/

/-- A line list on which the `parse_parameters_section` loop can never open
the `Parameters:` section: either a breaking header (`Returns:` /
`Example:` / `Algorithm:`) comes first, or no `Parameters:` line occurs at
all. -/
def noParamsBeforeMarker : List String → Bool
  | [] => true
  | l :: ls =>
    let sl := pyStrip l
    if pyStartsWith sl "Returns:" || pyStartsWith sl "Example:" ||
        pyStartsWith sl "Algorithm:" then true
    else if pyStartsWith sl "Parameters:" then false
    else noParamsBeforeMarker ls

/-- The entry one in-section line of `parse_returns_section` contributes:
skipped lines (blank, a repeated `Returns:` header, the bare `None`)
yield nothing; otherwise the named-return pattern is tried first and the
type-colon pattern second, and a line matching neither yields nothing. -/
def returnLineEntry (l : String) : Option RetEntry :=
  let sl := pyStrip l
  if sl = "" then Option.none
  else if pyStartsWith sl "Returns:" then Option.none
  else if sl = "None" then Option.none
  else
    match matchNamedReturn sl.data with
    | some (n, t, d) =>
      some { name := some (pyStrip ⟨n⟩), type := pyStrip ⟨t⟩,
             description := pyStrip ⟨d⟩ }
    | Option.none =>
      match matchTypeColon sl.data with
      | some (t, d) =>
        some { name := Option.none, type := pyStrip ⟨t⟩,
               description := pyStrip ⟨d⟩ }
      | Option.none => Option.none

/-- A line on which the opened `Returns:` loop terminates: non-blank, not
itself a `Returns:` header, and starting with one of the three closing
headers. -/
def returnBreakLine (l : String) : Bool :=
  let sl := pyStrip l
  sl ≠ ""
  && !pyStartsWith sl "Returns:"
  && (pyStartsWith sl "Example:" || pyStartsWith sl "Algorithm:" ||
      pyStartsWith sl "Parameters:")

/-- Attach a prefix to the first element of a line list. -/
def prefixFirst (p : String) : List String → List String
  | [] => []
  | h :: t => (p ++ h) :: t

/-- The parameter record `extract_parameters` rebuilds from one signature
parameter when the parsed doc-comment dictionary and the overrides are
both empty: every field takes its inferred or default form. -/
def reExtractedOfSig (p : SigParam) : AlgorithmParameter :=
  let paramType := CodeExtractor.inferType p {}
  let defaultVal := CodeExtractor.getDefaultValue p paramType
  { name := p.name,
    type := paramType,
    default := defaultVal,
    label := pyTitleLabel p.name,
    description := "Parameter " ++ p.name,
    widget := some (CodeExtractor.inferWidgetType p.name paramType Option.none),
    options := Option.none,
    min := Option.none,
    max := Option.none,
    step := Option.none,
    priority := if defaultVal = PyVal.none then "critical" else "non-critical",
    role := CodeExtractor.inferRole p.name paramType {} }

/-- Reflection data of a concrete two-parameter function whose doc comment
marks the second parameter as an input. -/
def c2Func : PyFunc :=
  { name := "f",
    sig := [{ name := "a", annot := some "int" }, { name := "s", annot := some "str" }],
    docstring := "Parameters:\ns (str): text\n    role: input\nAlgorithm:\n    name: t\n    category: c",
    source := "def f(a, s):\n    return s" }

/-- A concrete catalog entry with one DataFrame input and one int
parameter. -/
def c2Entry : AlgorithmMetadata :=
  { id := "g", name := "g", category := "c", description := "Compute.",
    parameters := [{ name := "n", type := "int", default := PyVal.int 2,
                     label := "N", description := "count",
                     widget := some "input-number" }],
    inputs := [{ name := "df", type := "DataFrame", description := "Input" }] }

/-! # Theorems -/

/-- Evaluation of the string branch of `_format_value` when the value is
not bracket-shaped and not the bare `None`. -/
theorem formatValueStr_plain (s : String) (pd : Option AlgorithmParameter)
    (h1 : (pyStartsWith s "[" && pyEndsWith s "]") = false)
    (h2 : (pyStartsWith s "\x7b" && pyEndsWith s "\x7d") = false)
    (h3 : (pyStartsWith s "(" && pyEndsWith s ")") = false)
    (h4 : s ≠ "None") :
    CodeGenerator.formatValueStr s pd =
      "\x27" ++ (if CodeGenerator.isFileSelector pd then escapeBackslash s else s) ++ "\x27" := by
  unfold CodeGenerator.formatValueStr
  rw [h1, h2, h3]
  simp [h4]

/-- C5: `generate_call` formats a bound value by its kind: the booleans
render as the boolean keywords, `3` and `3.5` render unquoted, the strings
`"[1, 2]"` and `"None"` pass through unquoted, an ordinary string such as
`"abc"` is quoted, and a string bound to a file-selector parameter is
quoted with its backslashes escaped. -/
theorem c5_format_value :
    (∀ pd, CodeGenerator.formatValue (.bool true) pd = "True")
  ∧ (∀ pd, CodeGenerator.formatValue (.bool false) pd = "False")
  ∧ (∀ pd, CodeGenerator.formatValue (.int 3) pd = "3")
  ∧ (∀ pd, CodeGenerator.formatValue (.float "3.5") pd = "3.5")
  ∧ (∀ pd, CodeGenerator.formatValue (.str "[1, 2]") pd = "[1, 2]")
  ∧ (∀ pd, CodeGenerator.formatValue (.str "None") pd = "None")
  ∧ (∀ pd, CodeGenerator.formatValue (.str "abc") pd = "\x27abc\x27")
  ∧ (∀ s q, q.widget = some "file-selector" →
      (pyStartsWith (pyStrip s) "[" && pyEndsWith (pyStrip s) "]") = false →
      (pyStartsWith (pyStrip s) "\x7b" && pyEndsWith (pyStrip s) "\x7d") = false →
      (pyStartsWith (pyStrip s) "(" && pyEndsWith (pyStrip s) ")") = false →
      pyStrip s ≠ "None" →
      CodeGenerator.formatValue (.str s) (some q)
        = "\x27" ++ escapeBackslash (pyStrip s) ++ "\x27") := by
  refine ⟨fun pd => rfl, fun pd => rfl, fun pd => rfl, fun pd => rfl,
          fun pd => rfl, fun pd => rfl, fun pd => ?_, fun s q hw h1 h2 h3 h4 => ?_⟩
  · show CodeGenerator.formatValueStr "abc" pd = "\x27abc\x27"
    rw [formatValueStr_plain "abc" pd (by decide) (by decide) (by decide) (by decide)]
    cases h : CodeGenerator.isFileSelector pd <;> decide
  · show CodeGenerator.formatValueStr (pyStrip s) (some q) = _
    rw [formatValueStr_plain (pyStrip s) (some q) h1 h2 h3 h4]
    have : CodeGenerator.isFileSelector (some q) = true := by
      simp [CodeGenerator.isFileSelector, hw]
    rw [this]
    simp

/-- Witness for C5 at a concrete Windows-style path bound to a
file-selector parameter. -/
theorem c5_format_value_witness :
    CodeGenerator.formatValue (.str "C:\\data")
        (some { name := "fp", widget := some "file-selector" })
      = "\x27C:\\\\data\x27" := by
  have h := c5_format_value.2.2.2.2.2.2.2 "C:\\data"
    { name := "fp", widget := some "file-selector" }
    rfl (by decide) (by decide) (by decide) (by decide)
  exact h.trans (by decide)

/-- Inversion of `extractOne`: a produced parameter is exactly the record
the loop body assembles. -/
theorem extractOne_some (p : SigParam) (info : ParamMeta) (ov : CodeExtractor.Override)
    (q : AlgorithmParameter) (hq : CodeExtractor.extractOne p info ov = some q) :
    q = { name := p.name,
          type := ov.type.getD (CodeExtractor.inferType p info),
          default :=
            (match ov.default with
             | some v => v
             | Option.none =>
               match info.default with
               | some v => pyOfScalar v
               | Option.none =>
                 CodeExtractor.getDefaultValue p (CodeExtractor.inferType p info)),
          label := ov.label.getD (info.label.getD (pyTitleLabel p.name)),
          description := ov.description.getD (info.description.getD ("Parameter " ++ p.name)),
          widget := some
            (match ov.widget with
             | some w => w
             | Option.none =>
               match info.widget with
               | some w => w
               | Option.none =>
                 CodeExtractor.inferWidgetType p.name (CodeExtractor.inferType p info)
                   (match ov.options with
                    | some o => some o
                    | Option.none => info.options)),
          options :=
            (match ov.options with
             | some o => some o
             | Option.none => info.options),
          min := (match ov.min with | some v => some v | Option.none => info.min),
          max := (match ov.max with | some v => some v | Option.none => info.max),
          step := (match ov.step with | some v => some v | Option.none => info.step),
          priority := ov.priority.getD
            (if info.priority.getD "" = "" then
               if CodeExtractor.getDefaultValue p (CodeExtractor.inferType p info) = PyVal.none
               then "critical" else "non-critical"
             else info.priority.getD ""),
          role := ov.role.getD
            (CodeExtractor.inferRole p.name (CodeExtractor.inferType p info) info) } := by
  unfold CodeExtractor.extractOne at hq
  by_cases hig : info.ignore.getD false = true
  · rw [if_pos hig] at hq
    exact absurd hq (by simp)
  · rw [if_neg hig] at hq
    exact (Option.some.injEq _ _ ▸ hq).symm

/-- C6 (amended): widget resolution precedence.  An explicit override
widget wins, then a doc-comment widget, then inference; inference yields
the selection control for a non-empty option list, then the file picker
for a name containing `filepath` or `file_path` (amended from the claimed
bare `file` / `path` substrings), then the column picker for `column` /
`columns`, the color picker for `color`, the checkbox for kind `bool`, the
numeric input for kinds `int` / `float`, and the plain text input
otherwise. -/
theorem c6_widget_resolution :
    (∀ p info ov q w, ov.widget = some w →
        CodeExtractor.extractOne p info ov = some q → q.widget = some w)
  ∧ (∀ p info ov q w, ov.widget = Option.none → info.widget = some w →
        CodeExtractor.extractOne p info ov = some q → q.widget = some w)
  ∧ (∀ p info ov q, ov.widget = Option.none → info.widget = Option.none →
        ov.options = Option.none →
        CodeExtractor.extractOne p info ov = some q →
        q.widget = some (CodeExtractor.inferWidgetType p.name
          (CodeExtractor.inferType p info) info.options))
  ∧ (∀ name t x xs, CodeExtractor.inferWidgetType name t (some (x :: xs)) = "select")
  ∧ (∀ name t opts, (opts = Option.none ∨ opts = some []) →
        (containsSub (pyLower name) "filepath" || containsSub (pyLower name) "file_path") = true →
        CodeExtractor.inferWidgetType name t opts = "file-selector")
  ∧ (∀ name t opts, (opts = Option.none ∨ opts = some []) →
        (containsSub (pyLower name) "filepath" || containsSub (pyLower name) "file_path") = false →
        (containsSub (pyLower name) "columns" || containsSub (pyLower name) "column") = true →
        CodeExtractor.inferWidgetType name t opts = "column-selector")
  ∧ (∀ name t opts, (opts = Option.none ∨ opts = some []) →
        (containsSub (pyLower name) "filepath" || containsSub (pyLower name) "file_path") = false →
        (containsSub (pyLower name) "columns" || containsSub (pyLower name) "column") = false →
        containsSub (pyLower name) "color" = true →
        CodeExtractor.inferWidgetType name t opts = "color-picker")
  ∧ (∀ name opts, (opts = Option.none ∨ opts = some []) →
        (containsSub (pyLower name) "filepath" || containsSub (pyLower name) "file_path") = false →
        (containsSub (pyLower name) "columns" || containsSub (pyLower name) "column") = false →
        containsSub (pyLower name) "color" = false →
        CodeExtractor.inferWidgetType name "bool" opts = "checkbox"
        ∧ CodeExtractor.inferWidgetType name "int" opts = "input-number"
        ∧ CodeExtractor.inferWidgetType name "float" opts = "input-number")
  ∧ (∀ name t opts, (opts = Option.none ∨ opts = some []) →
        (containsSub (pyLower name) "filepath" || containsSub (pyLower name) "file_path") = false →
        (containsSub (pyLower name) "columns" || containsSub (pyLower name) "column") = false →
        containsSub (pyLower name) "color" = false →
        t ≠ "bool" → t ≠ "int" → t ≠ "float" →
        CodeExtractor.inferWidgetType name t opts = "input-text") := by
  refine ⟨?_, ?_, ?_, ?_, ?_, ?_, ?_, ?_, ?_⟩
  · intro p info ov q w hov hq
    rw [extractOne_some p info ov q hq, hov]
  · intro p info ov q w hov hinfo hq
    rw [extractOne_some p info ov q hq, hov, hinfo]
  · intro p info ov q hov hinfo hopt hq
    rw [extractOne_some p info ov q hq, hov, hinfo, hopt]
  · intro name t x xs
    rfl
  · intro name t opts hopts hfp
    rcases hopts with h | h <;> subst h <;>
      simp [CodeExtractor.inferWidgetType, hfp]
  · intro name t opts hopts hfp hcol
    rcases hopts with h | h <;> subst h <;>
      simp [CodeExtractor.inferWidgetType, hfp, hcol]
  · intro name t opts hopts hfp hcol hc
    rcases hopts with h | h <;> subst h <;>
      simp [CodeExtractor.inferWidgetType, hfp, hcol, hc]
  · intro name opts hopts hfp hcol hc
    rcases hopts with h | h <;> subst h <;>
      refine ⟨?_, ?_, ?_⟩ <;>
      simp [CodeExtractor.inferWidgetType, hfp, hcol, hc]
  · intro name t opts hopts hfp hcol hc hb hi hf
    rcases hopts with h | h <;> subst h <;>
      simp [CodeExtractor.inferWidgetType, hfp, hcol, hc, hb, hi, hf]

/-- Counterexample for C6 as stated: the parameter name `filename`
contains the substring `file`, yet the inferred widget is the plain text
input, not the file picker. -/
theorem c6_counterexample :
    CodeExtractor.inferWidgetType "filename" "str" Option.none = "input-text"
    ∧ containsSub (pyLower "filename") "file" = true
    ∧ containsSub (pyLower "filename") "path" = false
    ∧ "input-text" ≠ "file-selector" := by
  refine ⟨rfl, by decide, by decide, by decide⟩

/-- Witness for C6 at concrete inputs. -/
theorem c6_widget_resolution_witness :
    CodeExtractor.inferWidgetType "file_path" "str" Option.none = "file-selector"
    ∧ CodeExtractor.inferWidgetType "window" "int" Option.none = "input-number" := by
  exact ⟨c6_widget_resolution.2.2.2.2.1 "file_path" "str" Option.none (Or.inl rfl) (by decide),
         (c6_widget_resolution.2.2.2.2.2.2.2.1 "window" Option.none (Or.inl rfl)
            (by decide) (by decide) (by decide)).2.1⟩

/-- C4 (amended): when neither the doc comment nor an override sets a
priority, the extracted parameter is `critical` exactly when the resolved
default value is `None` — that is, when the signature default is a literal
`None`, or there is no signature default and the resolved kind is none of
`int` / `float` / `bool` / `list` / `str` (for those kinds
`_get_default_value` substitutes an empty value, making the parameter
`non-critical` even without a signature default). -/
theorem c4_priority_resolution :
    (∀ p info ov q, (info.priority = Option.none ∨ info.priority = some "") →
        ov.priority = Option.none →
        CodeExtractor.extractOne p info ov = some q →
        q.priority =
          (if CodeExtractor.getDefaultValue p (CodeExtractor.inferType p info) = PyVal.none
           then "critical" else "non-critical"))
  ∧ (∀ p t, CodeExtractor.getDefaultValue p t = PyVal.none ↔
      (p.default = some PyVal.none
        ∨ (p.default = Option.none
            ∧ ¬(t = "int" ∨ t = "float" ∨ t = "bool" ∨ t = "list" ∨ t = "str")))) := by
  constructor
  · intro p info ov q hinfo hov hq
    rw [extractOne_some p info ov q hq, hov]
    rcases hinfo with h | h <;> simp [h]
  · intro p t
    unfold CodeExtractor.getDefaultValue
    rcases hd : p.default with _ | v
    · simp only [hd]
      split_ifs with h1 h2 h3 h4 h5 <;> simp_all
    · simp [hd]

/-- Counterexample for C4 as stated: the parameter `n` of kind `int`
declares no signature default and its doc entry sets no priority, yet the
extracted priority is `non-critical` (the kind-appropriate default `0`
fills in), where the claim requires `critical`. -/
theorem c4_counterexample :
    (CodeExtractor.extractParameters [{ name := "n", annot := some "int" }] []
        []).map (fun q => q.priority) = ["non-critical"]
    ∧ ({ name := "n", annot := some "int" } : SigParam).default = Option.none
    ∧ "non-critical" ≠ "critical" := by
  refine ⟨by decide, rfl, by decide⟩

/-- Witness for C4 at concrete inputs: a plain `n: int` parameter resolves
to `non-critical`, a `df` parameter of an unmapped kind to `critical`. -/
theorem c4_priority_resolution_witness :
    ((CodeExtractor.extractOne { name := "n", annot := some "int" } {} {}).map
        fun q => q.priority) = some "non-critical"
    ∧ ((CodeExtractor.extractOne { name := "df", annot := some "DataFrame" } {} {}).map
        fun q => q.priority) = some "critical" := by
  constructor
  · rcases hq : CodeExtractor.extractOne { name := "n", annot := some "int" }
        ({} : ParamMeta) ({} : CodeExtractor.Override) with _ | q
    · exact absurd hq (by decide)
    · have h := c4_priority_resolution.1 { name := "n", annot := some "int" } {} {} q
        (Or.inl rfl) rfl hq
      rw [Option.map_some', h]
      decide
  · rcases hq : CodeExtractor.extractOne { name := "df", annot := some "DataFrame" }
        ({} : ParamMeta) ({} : CodeExtractor.Override) with _ | q
    · exact absurd hq (by decide)
    · have h := c4_priority_resolution.1 { name := "df", annot := some "DataFrame" } {} {} q
        (Or.inl rfl) rfl hq
      rw [Option.map_some', h]
      decide

/-- C10: in `_build_call_args` a bound value whose name resolves to an
`input`-role parameter or input port is emitted verbatim as `name=value`
(the `str(val)` text spliced, never quoted or escaped), while every other
bound value goes through `_format_value`; a name found among the entry
inputs always resolves to the `input` role. -/
theorem c10_input_binding :
    (∀ m n v rest p, CodeGenerator.lookupAllParams m n = some p → p.role = "input" →
        CodeGenerator.buildCallArgs m ((n, v) :: rest)
          = (n ++ "=" ++ pyStr v) :: CodeGenerator.buildCallArgs m rest)
  ∧ (∀ m n s rest p, CodeGenerator.lookupAllParams m n = some p → p.role = "input" →
        CodeGenerator.buildCallArgs m ((n, .str s) :: rest)
          = (n ++ "=" ++ s) :: CodeGenerator.buildCallArgs m rest)
  ∧ (∀ m n v rest p, CodeGenerator.lookupAllParams m n = some p → p.role ≠ "input" →
        CodeGenerator.buildCallArgs m ((n, v) :: rest)
          = (n ++ "=" ++ CodeGenerator.formatValue v (some p))
              :: CodeGenerator.buildCallArgs m rest)
  ∧ (∀ m n v rest, CodeGenerator.lookupAllParams m n = Option.none →
        CodeGenerator.buildCallArgs m ((n, v) :: rest)
          = (n ++ "=" ++ CodeGenerator.formatValue v Option.none)
              :: CodeGenerator.buildCallArgs m rest)
  ∧ (∀ m n i, m.inputs.reverse.find? (fun j => j.name = n) = some i →
        ∃ p, CodeGenerator.lookupAllParams m n = some p ∧ p.role = "input") := by
  refine ⟨?_, ?_, ?_, ?_, ?_⟩
  · intro m n v rest p hp hrole
    simp [CodeGenerator.buildCallArgs, hp, hrole]
  · intro m n s rest p hp hrole
    simp [CodeGenerator.buildCallArgs, hp, hrole, pyStr]
  · intro m n v rest p hp hrole
    simp [CodeGenerator.buildCallArgs, hp, hrole]
  · intro m n v rest hp
    simp [CodeGenerator.buildCallArgs, hp]
  · intro m n i hfind
    refine ⟨{ name := i.name, type := i.type, role := "input" }, ?_, rfl⟩
    simp [CodeGenerator.lookupAllParams, hfind]

/-- Witness for C10: a string bound to the input port `df` is spliced
verbatim while the same string bound to a scalar parameter is quoted. -/
theorem c10_input_binding_witness :
    CodeGenerator.buildCallArgs
        { id := "f", name := "t", category := "c",
          inputs := [{ name := "df", type := "DataFrame" }],
          parameters := [{ name := "x" }] }
        [("df", .str "frame1"), ("x", .str "frame1")]
      = ["df=frame1", "x=\x27frame1\x27"] := by
  have h := c10_input_binding.2.1
    { id := "f", name := "t", category := "c",
      inputs := [{ name := "df", type := "DataFrame" }],
      parameters := [{ name := "x" }] }
    "df" "frame1" [("x", PyVal.str "frame1")]
    { name := "df", type := "DataFrame", role := "input" } (by decide) rfl
  exact h.trans (by decide)

/-- C9: with output names the emitted call text assigns the call result to
them — tuple-unpacking when there are several — and appends the first name
as a trailing bare expression; with no output name the call expression is
the trailing statement.  Stated for the widget generator assembly (the
only call site that can supply several names) and for
`generate_call_code` (which accepts at most one name). -/
theorem c9_output_emission :
    (∀ pre call, WidgetCodeGen.outputCode pre call [] = pre ++ call)
  ∧ (∀ pre call v, WidgetCodeGen.outputCode pre call [v]
        = pre ++ v ++ " = " ++ call ++ "\n" ++ v)
  ∧ (∀ pre call v w vs, WidgetCodeGen.outputCode pre call (v :: w :: vs)
        = pre ++ pyJoin ", " (v :: w :: vs) ++ " = " ++ call ++ "\n" ++ v)
  ∧ (∀ m ps v, v ≠ "" → CodeGenerator.generateCallCode m ps (some v)
        = CodeGenerator.callCodePrefix m ++ v ++ " = "
            ++ CodeGenerator.callExprOf m ps ++ "\n" ++ v)
  ∧ (∀ m ps, CodeGenerator.generateCallCode m ps Option.none
        = CodeGenerator.callCodePrefix m ++ CodeGenerator.callExprOf m ps) := by
  refine ⟨fun pre call => rfl, fun pre call v => rfl, fun pre call v w vs => rfl,
          fun m ps v hv => ?_, fun m ps => rfl⟩
  unfold CodeGenerator.generateCallCode CodeGenerator.callCodePrefix
    CodeGenerator.callExprOf
  simp [hv]

/-- Witness for C9 at a concrete entry and output name. -/
theorem c9_output_emission_witness :
    CodeGenerator.generateCallCode
        { id := "f", name := "t", category := "c", template := "def f(): pass" }
        [] (some "out")
      = "# t\ndef f(): pass\nout = f()\nout" := by
  have h := c9_output_emission.2.2.2.1
    { id := "f", name := "t", category := "c", template := "def f(): pass" }
    [] "out" (by decide)
  exact h.trans (by decide)

/-- Appending an entry to a category keeps the same entries up to
permutation, with the new entry added once. -/
theorem catalogEntries_addToCategory (r : List (String × List AlgorithmMetadata))
    (c : String) (a : AlgorithmMetadata) :
    (LibraryScanner.catalogEntries (LibraryScanner.addToCategory r c a)).Perm
      (a :: LibraryScanner.catalogEntries r) := by
  induction r with
  | nil => simp [LibraryScanner.addToCategory, LibraryScanner.catalogEntries]
  | cons hd tl ih =>
    obtain ⟨c', l⟩ := hd
    unfold LibraryScanner.addToCategory
    by_cases hc : c' = c
    · rw [if_pos hc]
      simp only [LibraryScanner.catalogEntries, List.flatMap_cons, List.append_assoc,
        List.singleton_append]
      exact List.perm_middle
    · rw [if_neg hc]
      simp only [LibraryScanner.catalogEntries, List.flatMap_cons] at ih ⊢
      exact (List.Perm.append_left l ih).trans List.perm_middle

/-- Invariant of the dedup fold of `scan`: cache ids stay distinct, the
category lists hold a permutation of the cache, every cached entry is the
first occurrence of its id in the processed stream, and the cached ids are
exactly the processed ids. -/
theorem scanStep_foldl_inv (stream : List AlgorithmMetadata) :
    ∀ (processed : List AlgorithmMetadata)
      (st : List AlgorithmMetadata × List (String × List AlgorithmMetadata)),
    (st.1.map fun a => a.id).Nodup →
    (LibraryScanner.catalogEntries st.2).Perm st.1 →
    (∀ a ∈ st.1, processed.find? (fun b => b.id = a.id) = some a) →
    (∀ i, (∃ a ∈ st.1, a.id = i) ↔ ∃ b ∈ processed, b.id = i) →
    ((((stream.foldl LibraryScanner.scanStep st).1.map fun a => a.id).Nodup)
     ∧ (LibraryScanner.catalogEntries
          (stream.foldl LibraryScanner.scanStep st).2).Perm
          (stream.foldl LibraryScanner.scanStep st).1
     ∧ (∀ a ∈ (stream.foldl LibraryScanner.scanStep st).1,
          (processed ++ stream).find? (fun b => b.id = a.id) = some a)
     ∧ (∀ i, (∃ a ∈ (stream.foldl LibraryScanner.scanStep st).1, a.id = i)
          ↔ ∃ b ∈ processed ++ stream, b.id = i)) := by
  induction stream with
  | nil =>
    intro processed st h1 h2 h3 h4
    simpa using ⟨h1, h2, h3, h4⟩
  | cons x rest ih =>
    intro processed st h1 h2 h3 h4
    rw [List.foldl_cons]
    by_cases hmem : st.1.any (fun a => a.id = x.id) = true
    · have hstep : LibraryScanner.scanStep st x = st := by
        simp [LibraryScanner.scanStep, hmem]
      rw [hstep]
      have h3' : ∀ a ∈ st.1, (processed ++ [x]).find? (fun b => b.id = a.id) = some a := by
        intro a ha
        rw [List.find?_append, h3 a ha]
        rfl
      have h4' : ∀ i, (∃ a ∈ st.1, a.id = i) ↔ ∃ b ∈ processed ++ [x], b.id = i := by
        intro i
        constructor
        · rintro ⟨a, ha, rfl⟩
          obtain ⟨b, hb, hbi⟩ := (h4 a.id).mp ⟨a, ha, rfl⟩
          exact ⟨b, List.mem_append_left _ hb, hbi⟩
        · rintro ⟨b, hb, rfl⟩
          rcases List.mem_append.mp hb with hb | hb
          · exact (h4 b.id).mpr ⟨b, hb, rfl⟩
          · have hbx : b = x := by simpa using hb
            obtain ⟨a, ha, hai⟩ := List.any_eq_true.mp hmem
            refine ⟨a, ha, ?_⟩
            rw [hbx]
            simpa using hai
      have := ih (processed ++ [x]) st h1 h2 h3' h4'
      simpa [List.append_assoc] using this
    · have hstep : LibraryScanner.scanStep st x
          = (st.1 ++ [x], LibraryScanner.addToCategory st.2 x.category x) := by
        simp [LibraryScanner.scanStep, hmem]
      rw [hstep]
      have hnotin : ∀ a ∈ st.1, a.id ≠ x.id := by
        intro a ha hax
        exact hmem (List.any_eq_true.mpr ⟨a, ha, by simpa using hax⟩)
      have h1' : ((st.1 ++ [x]).map fun a => a.id).Nodup := by
        rw [List.map_append, List.nodup_append]
        refine ⟨h1, by simp, ?_⟩
        intro i hi hix
        obtain ⟨a, ha, hai⟩ := List.mem_map.mp hi
        have hxi : i = x.id := by simpa using hix
        have hai' : a.id = i := hai
        exact hnotin a ha (hai'.trans hxi)
      have h2' : (LibraryScanner.catalogEntries
          (LibraryScanner.addToCategory st.2 x.category x)).Perm (st.1 ++ [x]) := by
        refine (catalogEntries_addToCategory st.2 x.category x).trans ?_
        refine (h2.cons x).trans ?_
        have := (@List.perm_middle AlgorithmMetadata x st.1
          ([] : List AlgorithmMetadata)).symm
        simpa using this
      have hfindx : processed.find? (fun b => b.id = x.id) = none := by
        rw [List.find?_eq_none]
        intro b hb hbid
        have hbx : b.id = x.id := by simpa using hbid
        obtain ⟨a, ha, hai⟩ := (h4 x.id).mpr ⟨b, hb, hbx⟩
        exact hnotin a ha hai
      have h3' : ∀ a ∈ st.1 ++ [x], (processed ++ [x]).find? (fun b => b.id = a.id) = some a := by
        intro a ha
        rcases List.mem_append.mp ha with ha | ha
        · rw [List.find?_append, h3 a ha]
          rfl
        · have hax : a = x := by simpa using ha
          rw [hax, List.find?_append, hfindx]
          simp
      have h4' : ∀ i, (∃ a ∈ st.1 ++ [x], a.id = i) ↔ ∃ b ∈ processed ++ [x], b.id = i := by
        intro i
        constructor
        · rintro ⟨a, ha, rfl⟩
          rcases List.mem_append.mp ha with ha | ha
          · obtain ⟨b, hb, hbi⟩ := (h4 a.id).mp ⟨a, ha, rfl⟩
            exact ⟨b, List.mem_append_left _ hb, hbi⟩
          · have hax : a = x := by simpa using ha
            exact ⟨x, List.mem_append_right _ (by simp), by rw [hax]⟩
        · rintro ⟨b, hb, rfl⟩
          rcases List.mem_append.mp hb with hb | hb
          · obtain ⟨a, ha, hai⟩ := (h4 b.id).mpr ⟨b, hb, rfl⟩
            exact ⟨a, List.mem_append_left _ ha, hai⟩
          · have hbx : b = x := by simpa using hb
            exact ⟨x, List.mem_append_right _ (by simp), by rw [hbx]⟩
      have := ih (processed ++ [x])
        (st.1 ++ [x], LibraryScanner.addToCategory st.2 x.category x) h1' h2' h3' h4'
      simpa [List.append_assoc] using this

/-- The module-by-module fold of `scan` equals the fold over the
concatenated per-module streams. -/
theorem scan_eq_foldl_flatMap (modules : List PyModule) :
    ∀ init, modules.foldl (fun st m => (LibraryScanner.scanModule m).foldl
        LibraryScanner.scanStep st) init
      = (modules.flatMap LibraryScanner.scanModule).foldl LibraryScanner.scanStep init := by
  induction modules with
  | nil => intro init; rfl
  | cons m rest ih =>
    intro init
    rw [List.foldl_cons, List.flatMap_cons, List.foldl_append, ih]

/-- C7: in every catalog returned by `scan`, entry ids are unique across
the union of all category lists, each entry is the first occurrence of its
id in the module traversal stream (so the first module declaring an id
wins and later same-id entries are dropped), and an id appears in the
catalog exactly when some traversed module declares it. -/
theorem c7_scan_dedup (modules : List PyModule) :
    ((LibraryScanner.catalogEntries (LibraryScanner.scan modules)).map fun a => a.id).Nodup
    ∧ (∀ a ∈ LibraryScanner.catalogEntries (LibraryScanner.scan modules),
        (modules.flatMap LibraryScanner.scanModule).find? (fun b => b.id = a.id) = some a)
    ∧ (∀ i, (∃ a ∈ LibraryScanner.catalogEntries (LibraryScanner.scan modules), a.id = i)
        ↔ ∃ b ∈ modules.flatMap LibraryScanner.scanModule, b.id = i) := by
  have hscan : LibraryScanner.scan modules
      = ((modules.flatMap LibraryScanner.scanModule).foldl LibraryScanner.scanStep ([], [])).2 := by
    unfold LibraryScanner.scan
    rw [scan_eq_foldl_flatMap]
  obtain ⟨h1, h2, h3, h4⟩ := scanStep_foldl_inv (modules.flatMap LibraryScanner.scanModule)
    [] ([], []) (by simp) (by simp [LibraryScanner.catalogEntries]) (by simp) (by simp)
  rw [hscan]
  set st := (modules.flatMap LibraryScanner.scanModule).foldl LibraryScanner.scanStep ([], [])
  refine ⟨(h2.map fun a => a.id).symm.nodup h1, ?_, ?_⟩
  · intro a ha
    have : a ∈ st.1 := h2.mem_iff.mp ha
    simpa using h3 a this
  · intro i
    rw [show (∃ a ∈ LibraryScanner.catalogEntries st.2, a.id = i)
        ↔ (∃ a ∈ st.1, a.id = i) from ⟨fun ⟨a, ha, hi⟩ => ⟨a, h2.mem_iff.mp ha, hi⟩,
          fun ⟨a, ha, hi⟩ => ⟨a, h2.mem_iff.mpr ha, hi⟩⟩]
    simpa using h4 i

/-- Witness for C7: two modules both declaring a function `f`; the entry
of the first module is the one the catalog retains. -/
theorem c7_scan_dedup_witness :
    ([{ name := "m1",
        funcs := [{ name := "f",
                    docstring := "Algorithm:\n    name: a1\n    category: c1" }] },
      { name := "m2",
        funcs := [{ name := "f",
                    docstring := "Algorithm:\n    name: a2\n    category: c2" }] }].flatMap
        LibraryScanner.scanModule).find?
      (fun b => b.id = ({ id := "f", name := "a1", category := "c1",
                          template := "# a1\n" } : AlgorithmMetadata).id)
    = some { id := "f", name := "a1", category := "c1", template := "# a1\n" } := by
  exact (c7_scan_dedup _).2.1 _ (by decide)

/-- Counterexample for C8 as stated: with an `existing_code` argument,
`generate_function_code` reassigns `metadata.imports`, so the entry passed
in is not left intact. -/
theorem c8_counterexample :
    (CodeGenerator.generateFunctionCode
        { id := "f", name := "t", category := "c", imports := ["import numpy as np"] }
        Option.none (some "import os")).2
      ≠ { id := "f", name := "t", category := "c", imports := ["import numpy as np"] } := by
  decide

/-- C8 (amended): `generate_function_code` leaves the entry untouched when
no original code is supplied; when `existing_code` is supplied it
reassigns only `imports` — to the first-occurrence deduplication of the
imports extracted from that code followed by the old imports — and every
other field keeps its value. -/
theorem c8_entry_mutation :
    (∀ m body, (CodeGenerator.generateFunctionCode m body Option.none).2 = m)
  ∧ (∀ m body code,
      (CodeGenerator.generateFunctionCode m body (some code)).2
        = { m with imports :=
              CodeGenerator.dedupKeepFirst (CodeExtractor.extractImports code ++ m.imports) })
  ∧ (∀ m body code,
      ((CodeGenerator.generateFunctionCode m body (some code)).2.id = m.id
       ∧ (CodeGenerator.generateFunctionCode m body (some code)).2.name = m.name
       ∧ (CodeGenerator.generateFunctionCode m body (some code)).2.category = m.category
       ∧ (CodeGenerator.generateFunctionCode m body (some code)).2.description = m.description
       ∧ (CodeGenerator.generateFunctionCode m body (some code)).2.prompt = m.prompt
       ∧ (CodeGenerator.generateFunctionCode m body (some code)).2.template = m.template
       ∧ (CodeGenerator.generateFunctionCode m body (some code)).2.parameters = m.parameters
       ∧ (CodeGenerator.generateFunctionCode m body (some code)).2.inputs = m.inputs
       ∧ (CodeGenerator.generateFunctionCode m body (some code)).2.outputs = m.outputs
       ∧ (CodeGenerator.generateFunctionCode m body (some code)).2.nodeType = m.nodeType)) := by
  refine ⟨fun m body => rfl, fun m body code => rfl, fun m body code => ?_⟩
  exact ⟨rfl, rfl, rfl, rfl, rfl, rfl, rfl, rfl, rfl, rfl⟩

/-- Line splitting never returns an empty list. -/
theorem splitLinesList_ne_nil (l : List Char) : splitLinesList l ≠ [] := by
  induction l with
  | nil => simp [splitLinesList]
  | cons c rest ih =>
    unfold splitLinesList
    by_cases hc : c = '\n'
    · simp [hc]
    · rw [if_neg hc]
      rcases h : splitLinesList rest with _ | ⟨l0, ls⟩
      · simp
      · simp

/-- Splitting distributes over an explicit newline. -/
theorem splitLinesList_append_newline (a b : List Char) :
    splitLinesList (a ++ '\n' :: b) = splitLinesList a ++ splitLinesList b := by
  induction a with
  | nil => simp [splitLinesList]
  | cons c a' ih =>
    by_cases hc : c = '\n'
    · subst hc
      show [] :: splitLinesList (a' ++ '\n' :: b)
          = ([] :: splitLinesList a') ++ splitLinesList b
      rw [ih]
      rfl
    · simp only [List.cons_append, splitLinesList, if_neg hc, List.append_eq]
      rcases h : splitLinesList a' with _ | ⟨l0, ls⟩
      · exact absurd h (splitLinesList_ne_nil a')
      · rw [ih, h]
        rfl

/-- A newline-free list splits into itself. -/
theorem splitLinesList_no_newline (a : List Char) (h : '\n' ∉ a) :
    splitLinesList a = [a] := by
  induction a with
  | nil => rfl
  | cons c a' ih =>
    have hc : c ≠ '\n' := fun hcc => h (hcc ▸ List.mem_cons_self c a')
    have ha' : '\n' ∉ a' := fun hm => h (List.mem_cons_of_mem c hm)
    unfold splitLinesList
    rw [if_neg hc, ih ha']

/-- Prefixing a newline-free list extends the first line of the split. -/
theorem splitLinesList_append_no_newline (a b : List Char) (h : '\n' ∉ a)
    (h0 : List Char) (t : List (List Char)) (hb : splitLinesList b = h0 :: t) :
    splitLinesList (a ++ b) = (a ++ h0) :: t := by
  induction a with
  | nil => simpa using hb
  | cons c a' ih =>
    have hc : c ≠ '\n' := fun hcc => h (hcc ▸ List.mem_cons_self c a')
    have ha' : '\n' ∉ a' := fun hm => h (List.mem_cons_of_mem c hm)
    simp only [List.cons_append, splitLinesList, if_neg hc, List.append_eq]
    rw [ih ha']

/-- Every piece of a split is newline-free. -/
theorem mem_splitLinesList_no_newline (l : List Char) :
    ∀ x ∈ splitLinesList l, '\n' ∉ x := by
  induction l with
  | nil =>
    intro x hx
    simp [splitLinesList] at hx
    simp [hx]
  | cons c rest ih =>
    intro x hx
    unfold splitLinesList at hx
    by_cases hc : c = '\n'
    · rw [if_pos hc] at hx
      rcases List.mem_cons.mp hx with h | h
      · simp [h]
      · exact ih x h
    · rw [if_neg hc] at hx
      rcases h : splitLinesList rest with _ | ⟨l0, ls⟩
      · exact absurd h (splitLinesList_ne_nil rest)
      · rw [h] at hx
        rcases List.mem_cons.mp hx with hh | hh
        · subst hh
          intro hm
          rcases List.mem_cons.mp hm with hm | hm
          · exact hc hm.symm
          · exact ih l0 (h ▸ List.mem_cons_self l0 ls) hm
        · exact ih x (h ▸ List.mem_cons_of_mem l0 hh)

/-- Structure eta for strings: rebuilding from the character data is the
identity. -/
theorem string_mk_data (s : String) : (⟨s.data⟩ : String) = s := rfl

/-- The split of a newline-joined line list whose lines are newline-free
is the line list itself. -/
theorem pySplitLines_join (ls : List String) (hne : ls ≠ [])
    (h : ∀ l ∈ ls, '\n' ∉ l.data) :
    pySplitLines (pyJoin "\n" ls) = ls := by
  induction ls with
  | nil => exact absurd rfl hne
  | cons x rest ih =>
    cases rest with
    | nil =>
      unfold pySplitLines pyJoin
      rw [splitLinesList_no_newline x.data (h x (List.mem_cons_self x []))]
      simp [string_mk_data]
    | cons y ys =>
      have hx : '\n' ∉ x.data := h x (List.mem_cons_self x (y :: ys))
      have hrest : ∀ l ∈ y :: ys, '\n' ∉ l.data :=
        fun l hl => h l (List.mem_cons_of_mem x hl)
      have ihr := ih (by simp) hrest
      unfold pySplitLines at ihr ⊢
      show (splitLinesList (x ++ "\n" ++ pyJoin "\n" (y :: ys) : String).data).map
        (fun l => (⟨l⟩ : String)) = x :: y :: ys
      have hdata : (x ++ "\n" ++ pyJoin "\n" (y :: ys) : String).data
          = x.data ++ '\n' :: (pyJoin "\n" (y :: ys)).data := by
        simp [String.data_append]
      rw [hdata, splitLinesList_append_newline, List.map_append,
        splitLinesList_no_newline x.data hx, ihr]
      rfl

/-- The parameters loop leaves its dictionary unchanged while the section
is closed and no line can open it. -/
theorem parseParamsLines_no_open (L : List String) :
    ∀ st : DocstringParser.ParamsState, st.inSection = false →
    (∀ l ∈ L, pyStartsWith (pyStrip l) "Parameters:" = false) →
    DocstringParser.parseParamsLines st L = st.params := by
  induction L with
  | nil =>
    intro st hsec hP
    rfl
  | cons l rest ih =>
    intro st hsec hP
    have hPl : pyStartsWith (pyStrip l) "Parameters:" = false := hP l (List.mem_cons_self _ _)
    have hPrest : ∀ x ∈ rest, pyStartsWith (pyStrip x) "Parameters:" = false :=
      fun x hx => hP x (List.mem_cons_of_mem _ hx)
    by_cases h0 : pyStrip l = ""
    · rw [show DocstringParser.parseParamsLines st (l :: rest)
          = DocstringParser.parseParamsLines st rest by
        simp [DocstringParser.parseParamsLines, h0]]
      exact ih st hsec hPrest
    · by_cases hm : (pyStartsWith (pyStrip l) "Returns:" || pyStartsWith (pyStrip l) "Example:"
          || pyStartsWith (pyStrip l) "Algorithm:") = true
      · simp [DocstringParser.parseParamsLines, h0, hPl, hm]
      · rw [show DocstringParser.parseParamsLines st (l :: rest)
            = DocstringParser.parseParamsLines st rest by
          simp [DocstringParser.parseParamsLines, h0, hPl, hm, hsec]]
        exact ih st hsec hPrest

/-- The algorithm loop leaves its dictionary unchanged while the section
is closed and no line can open it. -/
theorem parseAlgoLines_no_open (L : List String) :
    ∀ md, (∀ l ∈ L, pyStartsWith (pyStrip l) "Algorithm:" = false) →
    DocstringParser.parseAlgoLines md false L = md := by
  induction L with
  | nil =>
    intro md hP
    rfl
  | cons l rest ih =>
    intro md hP
    have hPl : pyStartsWith (pyStrip l) "Algorithm:" = false := hP l (List.mem_cons_self _ _)
    have hPrest : ∀ x ∈ rest, pyStartsWith (pyStrip x) "Algorithm:" = false :=
      fun x hx => hP x (List.mem_cons_of_mem _ hx)
    rw [show DocstringParser.parseAlgoLines md false (l :: rest)
        = DocstringParser.parseAlgoLines md false rest by
      by_cases h0 : pyStrip l = "" <;>
        simp [DocstringParser.parseAlgoLines, h0, hPl]]
    exact ih md hPrest

/-- The returns loop leaves its accumulator unchanged while the section is
closed and no line can open it. -/
theorem parseReturnsLines_no_open (L : List String) :
    ∀ acc, (∀ l ∈ L, pyStartsWith (pyStrip l) "Returns:" = false) →
    DocstringParser.parseReturnsLines acc false L = acc := by
  induction L with
  | nil =>
    intro acc hP
    rfl
  | cons l rest ih =>
    intro acc hP
    have hPl : pyStartsWith (pyStrip l) "Returns:" = false := hP l (List.mem_cons_self _ _)
    have hPrest : ∀ x ∈ rest, pyStartsWith (pyStrip x) "Returns:" = false :=
      fun x hx => hP x (List.mem_cons_of_mem _ hx)
    rw [show DocstringParser.parseReturnsLines acc false (l :: rest)
        = DocstringParser.parseReturnsLines acc false rest by
      by_cases h0 : pyStrip l = "" <;>
        simp [DocstringParser.parseReturnsLines, h0, hPl]]
    exact ih acc hPrest

/-- C1: `parse` is total — the empty docstring, a lone `Returns:` header
and a docstring with malformed nested parameter attribute lines all
produce results, and a docstring in which a section can never open yields
the empty structure for that section. -/
theorem c1_parse_totality :
    (DocstringParser.parse "" = ⟨"", [], [], []⟩)
  ∧ (DocstringParser.parse "Returns:" = ⟨"", [], [], []⟩)
  ∧ (DocstringParser.parse "Parameters:\nx (int): d\n        options: [[[\n            min: )(: q"
       = ⟨"", [],
          [("x", { description := some "d", type := some "int",
                   options := some [], min := some (.str ")(: q") })], []⟩)
  ∧ (∀ s, (∀ l ∈ pySplitLines s, pyStartsWith (pyStrip l) "Parameters:" = false) →
       (DocstringParser.parse s).parameters = [])
  ∧ (∀ s, (∀ l ∈ pySplitLines s, pyStartsWith (pyStrip l) "Algorithm:" = false) →
       (DocstringParser.parse s).algorithm = [])
  ∧ (∀ s, (∀ l ∈ pySplitLines s, pyStartsWith (pyStrip l) "Returns:" = false) →
       (DocstringParser.parse s).returns = []) := by
  refine ⟨rfl, by decide, by decide, ?_, ?_, ?_⟩
  · intro s hs
    by_cases h : s = ""
    · subst h
      rfl
    · have hp : (DocstringParser.parse s).parameters
          = DocstringParser.parseParametersSection s := by
        unfold DocstringParser.parse
        rw [if_neg h]
      rw [hp]
      unfold DocstringParser.parseParametersSection
      rw [if_neg h]
      exact parseParamsLines_no_open _ _ rfl hs
  · intro s hs
    by_cases h : s = ""
    · subst h
      rfl
    · have hp : (DocstringParser.parse s).algorithm
          = DocstringParser.parseAlgorithmSection s := by
        unfold DocstringParser.parse
        rw [if_neg h]
      rw [hp]
      unfold DocstringParser.parseAlgorithmSection
      rw [if_neg h]
      exact parseAlgoLines_no_open _ _ hs
  · intro s hs
    by_cases h : s = ""
    · subst h
      rfl
    · have hp : (DocstringParser.parse s).returns
          = DocstringParser.parseReturnsSection s := by
        unfold DocstringParser.parse
        rw [if_neg h]
      rw [hp]
      unfold DocstringParser.parseReturnsSection
      rw [if_neg h]
      exact parseReturnsLines_no_open _ _ hs

/-- Witness for C1: a plain description line opens no section, so all
three sections come back empty. -/
theorem c1_parse_totality_witness :
    (DocstringParser.parse "just a description line").parameters = []
    ∧ (DocstringParser.parse "just a description line").algorithm = []
    ∧ (DocstringParser.parse "just a description line").returns = [] := by
  exact ⟨c1_parse_totality.2.2.2.1 _ (by decide),
         c1_parse_totality.2.2.2.2.1 _ (by decide),
         c1_parse_totality.2.2.2.2.2 _ (by decide)⟩

/-- With the section open, each remaining line (none of which closes the
section) contributes exactly its `returnLineEntry`, in order. -/
theorem parseReturnsLines_open (ls : List String) :
    ∀ acc, (∀ l ∈ ls, returnBreakLine l = false) →
    DocstringParser.parseReturnsLines acc true ls
      = acc ++ ls.filterMap returnLineEntry := by
  induction ls with
  | nil =>
    intro acc h
    simp [DocstringParser.parseReturnsLines]
  | cons l rest ih =>
    intro acc h
    have hl : returnBreakLine l = false := h l (List.mem_cons_self _ _)
    have hrest : ∀ x ∈ rest, returnBreakLine x = false :=
      fun x hx => h x (List.mem_cons_of_mem _ hx)
    by_cases h0 : pyStrip l = ""
    · rw [show DocstringParser.parseReturnsLines acc true (l :: rest)
          = DocstringParser.parseReturnsLines acc true rest by
        simp [DocstringParser.parseReturnsLines, h0]]
      rw [ih acc hrest, List.filterMap_cons,
        show returnLineEntry l = Option.none by simp [returnLineEntry, h0]]
    · by_cases hRet : pyStartsWith (pyStrip l) "Returns:" = true
      · rw [show DocstringParser.parseReturnsLines acc true (l :: rest)
            = DocstringParser.parseReturnsLines acc true rest by
          simp [DocstringParser.parseReturnsLines, h0, hRet]]
        rw [ih acc hrest, List.filterMap_cons,
          show returnLineEntry l = Option.none by simp [returnLineEntry, h0, hRet]]
      · have hRet' : pyStartsWith (pyStrip l) "Returns:" = false :=
          Bool.eq_false_iff.mpr hRet
        have hEAP : (pyStartsWith (pyStrip l) "Example:"
            || pyStartsWith (pyStrip l) "Algorithm:"
            || pyStartsWith (pyStrip l) "Parameters:") = false := by
          cases hb : (pyStartsWith (pyStrip l) "Example:"
              || pyStartsWith (pyStrip l) "Algorithm:"
              || pyStartsWith (pyStrip l) "Parameters:")
          · rfl
          · exfalso
            simp [returnBreakLine, h0, hRet', hb] at hl
        by_cases hN : pyStrip l = "None"
        · have hc0 : ¬("None" = "") := by decide
          have hcR : pyStartsWith "None" "Returns:" = false := by decide
          have hcE : pyStartsWith "None" "Example:" = false := by decide
          have hcA : pyStartsWith "None" "Algorithm:" = false := by decide
          have hcP : pyStartsWith "None" "Parameters:" = false := by decide
          rw [show DocstringParser.parseReturnsLines acc true (l :: rest)
              = DocstringParser.parseReturnsLines acc true rest by
            simp [DocstringParser.parseReturnsLines, hN, hc0, hcR, hcE, hcA, hcP]]
          rw [ih acc hrest, List.filterMap_cons,
            show returnLineEntry l = Option.none by
              simp [returnLineEntry, hN, hc0, hcR]]
        · rcases hm : matchNamedReturn (pyStrip l).data with _ | ⟨n, t, d⟩
          · rcases hm2 : matchTypeColon (pyStrip l).data with _ | ⟨t, d⟩
            · rw [show DocstringParser.parseReturnsLines acc true (l :: rest)
                  = DocstringParser.parseReturnsLines acc true rest by
                simp [DocstringParser.parseReturnsLines, h0, hRet', hEAP, hN, hm, hm2]]
              rw [ih acc hrest, List.filterMap_cons,
                show returnLineEntry l = Option.none by
                  simp [returnLineEntry, h0, hRet', hN, hm, hm2]]
            · rw [show DocstringParser.parseReturnsLines acc true (l :: rest)
                  = DocstringParser.parseReturnsLines
                      (acc ++ [{ name := Option.none, type := pyStrip ⟨t⟩,
                                 description := pyStrip ⟨d⟩ }]) true rest by
                simp [DocstringParser.parseReturnsLines, h0, hRet', hEAP, hN, hm, hm2]]
              rw [ih _ hrest, List.filterMap_cons,
                show returnLineEntry l
                    = some { name := Option.none, type := pyStrip ⟨t⟩,
                             description := pyStrip ⟨d⟩ } by
                  simp [returnLineEntry, h0, hRet', hN, hm, hm2]]
              simp
          · rw [show DocstringParser.parseReturnsLines acc true (l :: rest)
                = DocstringParser.parseReturnsLines
                    (acc ++ [{ name := some (pyStrip ⟨n⟩), type := pyStrip ⟨t⟩,
                               description := pyStrip ⟨d⟩ }]) true rest by
              simp [DocstringParser.parseReturnsLines, h0, hRet', hEAP, hN, hm]]
            rw [ih _ hrest, List.filterMap_cons,
              show returnLineEntry l
                  = some { name := some (pyStrip ⟨n⟩), type := pyStrip ⟨t⟩,
                           description := pyStrip ⟨d⟩ } by
                simp [returnLineEntry, h0, hRet', hN, hm]]
            simp

/-- The joined line list of a `Returns:` section is non-empty as a
string. -/
theorem pyJoin_returns_ne_empty (ls : List String) :
    pyJoin "\n" ("Returns:" :: ls) ≠ "" := by
  cases ls with
  | nil => decide
  | cons y ys =>
    intro hcon
    have := congrArg String.data hcon
    simp [pyJoin, String.data_append] at this

/-- C3 (amended): a bare `None` line contributes no entry, but returns
parsing is not single-shot — in a `Returns:` section every line matching
the named-return pattern or the type-colon pattern contributes one entry,
in order, and a line matching neither (or skipped as blank, repeated
header or bare `None`) contributes nothing. -/
theorem c3_returns_not_single_shot :
    (DocstringParser.parseReturnsSection "Returns:\nNone" = [])
  ∧ (∀ ls, (∀ l ∈ ls, '\n' ∉ l.data ∧ returnBreakLine l = false) →
      DocstringParser.parseReturnsSection (pyJoin "\n" ("Returns:" :: ls))
        = ls.filterMap returnLineEntry) := by
  constructor
  · decide
  · intro ls hg
    unfold DocstringParser.parseReturnsSection
    rw [if_neg (pyJoin_returns_ne_empty ls)]
    have hsplit : pySplitLines (pyJoin "\n" ("Returns:" :: ls)) = "Returns:" :: ls := by
      apply pySplitLines_join _ (by simp)
      intro l hl
      rcases List.mem_cons.mp hl with h | h
      · subst h
        decide
      · exact (hg l h).1
    rw [hsplit]
    rw [show DocstringParser.parseReturnsLines [] false ("Returns:" :: ls)
        = DocstringParser.parseReturnsLines [] true ls by
      have h1 : ¬ (pyStrip "Returns:" = "") := by decide
      have h2 : pyStartsWith (pyStrip "Returns:") "Returns:" = true := by decide
      simp [DocstringParser.parseReturnsLines, h1, h2]]
    rw [parseReturnsLines_open ls [] (fun l hl => (hg l hl).2)]
    simp

/-- Counterexample for C3 as stated: two named-return lines both
contribute entries, so the parse is not limited to the first matched
line. -/
theorem c3_counterexample :
    DocstringParser.parseReturnsSection "Returns:\na (int): x\nb (str): y"
      = [{ name := some "a", type := "int", description := "x" },
         { name := some "b", type := "str", description := "y" }]
    ∧ ¬ (DocstringParser.parseReturnsSection "Returns:\na (int): x\nb (str): y").length ≤ 1 := by
  constructor
  · decide
  · decide

/-- Witness for C3 at a concrete mixed four-line section: a named line
and a type-colon line each contribute an entry, a bare `None` and a
colon-free line contribute nothing. -/
theorem c3_returns_not_single_shot_witness :
    DocstringParser.parseReturnsSection
        (pyJoin "\n" ["Returns:", "a (int): x", "DataFrame: result", "None", "plain text"])
      = ["a (int): x", "DataFrame: result", "None", "plain text"].filterMap returnLineEntry
    ∧ ["a (int): x", "DataFrame: result", "None", "plain text"].filterMap returnLineEntry
      = [{ name := some "a", type := "int", description := "x" },
         { name := Option.none, type := "DataFrame", description := "result" }] := by
  refine ⟨c3_returns_not_single_shot.2
    ["a (int): x", "DataFrame: result", "None", "plain text"] (by decide), by decide⟩

/-- A string is empty exactly when its character data is. -/
theorem string_eq_empty_iff (s : String) : s = "" ↔ s.data = [] := by
  cases s with
  | mk l => simp [String.ext_iff]

/-- Characters of the stripped list come from the original. -/
theorem mem_pyStripList (l : List Char) (x : Char) (hx : x ∈ pyStripList l) : x ∈ l := by
  unfold pyStripList at hx
  rw [List.mem_reverse] at hx
  have h1 := List.Sublist.mem hx (List.dropWhile_sublist isPySpace)
  rw [List.mem_reverse] at h1
  exact List.Sublist.mem h1 (List.dropWhile_sublist isPySpace)

/-- Dropping a prefix leaves the last element alone. -/
theorem dropWhile_getLast?_of_ne_nil (p : Char → Bool) (l : List Char)
    (h : l.dropWhile p ≠ []) : (l.dropWhile p).getLast? = l.getLast? := by
  induction l with
  | nil => simp at h
  | cons c rest ih =>
    rw [List.dropWhile_cons] at h ⊢
    by_cases hp : p c = true
    · rw [if_pos hp] at h ⊢
      rw [ih h]
      have hr : rest ≠ [] := by
        intro hrr
        rw [hrr] at h
        simp at h
      cases rest with
      | nil => exact absurd rfl hr
      | cons d ds => rw [List.getLast?_cons_cons]
    · rw [if_neg hp]

/-- The head surviving `dropWhile` fails the predicate. -/
theorem dropWhile_head?_false (p : Char → Bool) (l : List Char) (c : Char)
    (hc : (l.dropWhile p).head? = some c) : p c = false := by
  have h := List.head?_dropWhile_not p l
  rw [hc] at h
  exact h

/-- The first character of a stripped string is not whitespace. -/
theorem pyStrip_head (s : String) (c : Char)
    (hc : (pyStrip s).data.head? = some c) : isPySpace c = false := by
  have hd : (pyStrip s).data = pyStripList s.data := rfl
  rw [hd] at hc
  unfold pyStripList at hc
  rw [List.head?_reverse] at hc
  have hne : (s.data.dropWhile isPySpace).reverse.dropWhile isPySpace ≠ [] := by
    intro hnil
    rw [hnil] at hc
    simp at hc
  rw [dropWhile_getLast?_of_ne_nil _ _ hne, List.getLast?_reverse] at hc
  exact dropWhile_head?_false _ _ _ hc

/-- The last character of a stripped string is not whitespace. -/
theorem pyStrip_last (s : String) (c : Char)
    (hc : (pyStrip s).data.getLast? = some c) : isPySpace c = false := by
  have hd : (pyStrip s).data = pyStripList s.data := rfl
  rw [hd] at hc
  unfold pyStripList at hc
  rw [List.getLast?_reverse] at hc
  exact dropWhile_head?_false _ _ _ hc

/-- `dropWhile` is the identity when the head fails the predicate. -/
theorem dropWhile_eq_self_of_head (p : Char → Bool) (l : List Char)
    (h : ∀ c, l.head? = some c → p c = false) : l.dropWhile p = l := by
  cases l with
  | nil => rfl
  | cons c rest =>
    have hc := h c rfl
    rw [List.dropWhile_cons, if_neg (by simp [hc])]

/-- Stripping is the identity on a string with non-whitespace (or missing)
boundary characters. -/
theorem pyStrip_of_boundary (s : String)
    (hh : ∀ c, s.data.head? = some c → isPySpace c = false)
    (hl : ∀ c, s.data.getLast? = some c → isPySpace c = false) :
    pyStrip s = s := by
  have h1 : s.data.dropWhile isPySpace = s.data := dropWhile_eq_self_of_head _ _ hh
  have h2 : s.data.reverse.dropWhile isPySpace = s.data.reverse := by
    apply dropWhile_eq_self_of_head
    intro c hc
    rw [List.head?_reverse] at hc
    exact hl c hc
  unfold pyStrip pyStripList
  rw [h1, h2, List.reverse_reverse]

/-- Stripping is idempotent. -/
theorem pyStrip_idem (s : String) : pyStrip (pyStrip s) = pyStrip s :=
  pyStrip_of_boundary _ (pyStrip_head s) (pyStrip_last s)

/-- Head character of a joined non-empty-headed list. -/
theorem pyJoin_data_head? (sep : String) (d : String) (ds : List String)
    (hd : d ≠ "") : (pyJoin sep (d :: ds)).data.head? = d.data.head? := by
  have hdd : d.data ≠ [] := fun h => hd ((string_eq_empty_iff d).mpr h)
  cases ds with
  | nil => rfl
  | cons y ys =>
    show ((d ++ sep ++ pyJoin sep (y :: ys)).data).head? = _
    rw [String.data_append, String.data_append, List.append_assoc, List.head?_append]
    cases hdc : d.data with
    | nil => exact absurd hdc hdd
    | cons c cs => simp [hdc]

/-- Last character of a join whose final element is non-empty. -/
theorem pyJoin_data_getLast? (sep : String) :
    ∀ (ds : List String) (d : String), ds.getLast? = some d → d ≠ "" →
    (pyJoin sep ds).data.getLast? = d.data.getLast? := by
  intro ds
  induction ds with
  | nil =>
    intro d hlast hd
    simp at hlast
  | cons x rest ih =>
    intro d hlast hd
    cases rest with
    | nil =>
      have hxd : x = d := by simpa using hlast
      rw [hxd]
      rfl
    | cons y ys =>
      have hlast' : (y :: ys).getLast? = some d := by
        rw [← hlast, List.getLast?_cons_cons]
      show ((x ++ sep ++ pyJoin sep (y :: ys)).data).getLast? = _
      rw [String.data_append, String.data_append, List.getLast?_append]
      rw [ih d hlast' hd]
      have hdd : d.data ≠ [] := fun h => hd ((string_eq_empty_iff d).mpr h)
      cases hdc : d.data.getLast? with
      | none => exact absurd (List.getLast?_eq_none_iff.mp hdc) hdd
      | some c => simp [hdc]

/-- Every collected description line is a stripped member of the input,
non-empty, and starts no section. -/
theorem parseDescLines_mem (L : List String) :
    ∀ d ∈ DocstringParser.parseDescLines L,
      (∃ l ∈ L, d = pyStrip l) ∧ d ≠ ""
      ∧ pyStartsWith d "Algorithm:" = false ∧ pyStartsWith d "Parameters:" = false
      ∧ pyStartsWith d "Returns:" = false ∧ pyStartsWith d "Example:" = false := by
  induction L with
  | nil =>
    intro d hd
    simp [DocstringParser.parseDescLines] at hd
  | cons l rest ih =>
    intro d hd
    unfold DocstringParser.parseDescLines at hd
    by_cases hm : (pyStartsWith (pyStrip l) "Algorithm:" || pyStartsWith (pyStrip l) "Parameters:"
        || pyStartsWith (pyStrip l) "Returns:" || pyStartsWith (pyStrip l) "Example:") = true
    · rw [if_pos hm] at hd
      simp at hd
    · rw [if_neg hm] at hd
      simp only [Bool.or_eq_true, not_or, Bool.not_eq_true] at hm
      obtain ⟨⟨⟨hA, hP⟩, hR⟩, hE⟩ := hm
      by_cases h0 : pyStrip l = ""
      · rw [if_pos h0] at hd
        obtain ⟨⟨l', hl'⟩, rest'⟩ := ih d hd
        exact ⟨⟨l', List.mem_cons_of_mem _ hl'.1, hl'.2⟩, rest'⟩
      · rw [if_neg h0] at hd
        rcases List.mem_cons.mp hd with h | h
        · subst h
          exact ⟨⟨l, List.mem_cons_self _ _, rfl⟩, h0, hA, hP, hR, hE⟩
        · obtain ⟨⟨l', hl'⟩, rest'⟩ := ih d h
          exact ⟨⟨l', List.mem_cons_of_mem _ hl'.1, hl'.2⟩, rest'⟩

/-- Every line of a parsed description, once stripped, starts no
section. -/
theorem description_lines_safe (s : String) :
    ∀ l ∈ pySplitLines (DocstringParser.parseDescription s),
      pyStartsWith (pyStrip l) "Algorithm:" = false
      ∧ pyStartsWith (pyStrip l) "Parameters:" = false
      ∧ pyStartsWith (pyStrip l) "Returns:" = false
      ∧ pyStartsWith (pyStrip l) "Example:" = false := by
  intro l hl
  by_cases hs : s = ""
  · subst hs
    have : l = "" := by simpa [DocstringParser.parseDescription, pySplitLines,
      splitLinesList] using hl
    subst this
    refine ⟨by decide, by decide, by decide, by decide⟩
  · unfold DocstringParser.parseDescription at hl
    rw [if_neg hs] at hl
    rcases hds : DocstringParser.parseDescLines (pySplitLines s) with _ | ⟨d, ds⟩
    · rw [hds] at hl
      have : l = "" := by simpa [pyJoin, pyStrip, pyStripList, pySplitLines,
        splitLinesList] using hl
      subst this
      refine ⟨by decide, by decide, by decide, by decide⟩
    · rw [hds] at hl
      have hprops := parseDescLines_mem (pySplitLines s)
      rw [hds] at hprops
      have hstrip : pyStrip (pyJoin "\n" (d :: ds)) = pyJoin "\n" (d :: ds) := by
        apply pyStrip_of_boundary
        · intro c hc
          obtain ⟨⟨l0, _, hl0⟩, hne, _⟩ := hprops d (List.mem_cons_self _ _)
          rw [pyJoin_data_head? "\n" d ds hne, hl0] at hc
          exact pyStrip_head l0 c hc
        · intro c hc
          rcases hlast : (d :: ds).getLast? with _ | e
          · simp at hlast
          · have hmem : e ∈ d :: ds := List.mem_of_mem_getLast? hlast
            obtain ⟨⟨l0, _, hl0⟩, hne, _⟩ := hprops e hmem
            rw [pyJoin_data_getLast? "\n" (d :: ds) e hlast hne, hl0] at hc
            exact pyStrip_last l0 c hc
      rw [hstrip] at hl
      have hnl : ∀ x ∈ d :: ds, '\n' ∉ x.data := by
        intro x hx
        obtain ⟨⟨l0, hl0m, hl0⟩, _⟩ := hprops x hx
        intro hmem
        rw [hl0] at hmem
        have hx0 : '\n' ∈ l0.data := mem_pyStripList l0.data '\n' hmem
        obtain ⟨piece, hpiece, hpe⟩ := List.mem_map.mp hl0m
        have : '\n' ∉ piece := mem_splitLinesList_no_newline s.data piece hpiece
        rw [← hpe] at hx0
        exact this hx0
      rw [pySplitLines_join (d :: ds) (by simp) hnl] at hl
      obtain ⟨⟨l0, _, hl0⟩, _, hA, hP, hR, hE⟩ := hprops l hl
      have hli : pyStrip l = l := by
        rw [hl0]
        exact pyStrip_idem l0
      rw [hli]
      exact ⟨hA, hP, hR, hE⟩

/-- The parameters loop passes over safe lines without changing state. -/
theorem parseParamsLines_walk (L1 : List String) :
    ∀ (L2 : List String) (st : DocstringParser.ParamsState), st.inSection = false →
    (∀ l ∈ L1, pyStartsWith (pyStrip l) "Parameters:" = false
       ∧ pyStartsWith (pyStrip l) "Returns:" = false
       ∧ pyStartsWith (pyStrip l) "Example:" = false
       ∧ pyStartsWith (pyStrip l) "Algorithm:" = false) →
    DocstringParser.parseParamsLines st (L1 ++ L2)
      = DocstringParser.parseParamsLines st L2 := by
  induction L1 with
  | nil =>
    intro L2 st hsec hP
    rfl
  | cons l rest ih =>
    intro L2 st hsec hP
    obtain ⟨hPl, hRl, hEl, hAl⟩ := hP l (List.mem_cons_self _ _)
    have hPrest := fun x hx => hP x (List.mem_cons_of_mem _ hx)
    rw [List.cons_append]
    by_cases h0 : pyStrip l = ""
    · rw [show DocstringParser.parseParamsLines st (l :: (rest ++ L2))
          = DocstringParser.parseParamsLines st (rest ++ L2) by
        simp [DocstringParser.parseParamsLines, h0]]
      exact ih L2 st hsec hPrest
    · rw [show DocstringParser.parseParamsLines st (l :: (rest ++ L2))
          = DocstringParser.parseParamsLines st (rest ++ L2) by
        simp [DocstringParser.parseParamsLines, h0, hPl, hRl, hEl, hAl, hsec]]
      exact ih L2 st hsec hPrest

/-- A line opening a breaking header stops the parameters loop with the
current dictionary. -/
theorem parseParamsLines_break (l0 : String) (L : List String)
    (st : DocstringParser.ParamsState)
    (h0 : ¬ pyStrip l0 = "")
    (hP : pyStartsWith (pyStrip l0) "Parameters:" = false)
    (hA : (pyStartsWith (pyStrip l0) "Returns:" || pyStartsWith (pyStrip l0) "Example:"
          || pyStartsWith (pyStrip l0) "Algorithm:") = true) :
    DocstringParser.parseParamsLines st (l0 :: L) = st.params := by
  simp [DocstringParser.parseParamsLines, h0, hP, hA]

/-- Split of an indent-joined list: the first element splits on its own,
and the head line of the rest is glued behind the four-space indent. -/
theorem pySplitLines_join_indent (x y : String) (ys : List String) :
    pySplitLines (pyJoin "\n    " (x :: y :: ys))
      = pySplitLines x
          ++ prefixFirst "    " (pySplitLines (pyJoin "\n    " (y :: ys))) := by
  show pySplitLines (x ++ "\n    " ++ pyJoin "\n    " (y :: ys)) = _
  have hdata : (x ++ "\n    " ++ pyJoin "\n    " (y :: ys)).data
      = x.data ++ '\n' :: ("    ".data ++ (pyJoin "\n    " (y :: ys)).data) := by
    rw [String.data_append, String.data_append, List.append_assoc]
    rfl
  unfold pySplitLines
  rw [hdata, splitLinesList_append_newline]
  rcases hJ : splitLinesList (pyJoin "\n    " (y :: ys)).data with _ | ⟨j0, jt⟩
  · exact absurd hJ (splitLinesList_ne_nil _)
  · rw [splitLinesList_append_no_newline "    ".data _ (by decide) j0 jt hJ]
    rw [List.map_append]
    congr 1

/-- Head shape of the emitted doc comment line list. -/
theorem buildDocstringLines_shape (m : AlgorithmMetadata) :
    ∃ R, CodeGenerator.buildDocstringLines m
      = m.description :: "" :: "Algorithm:" :: ("    name: " ++ m.name) :: R := by
  refine ⟨("    category: " ++ m.category)
      :: ((if m.prompt ≠ "" then ["    prompt: " ++ m.prompt] else [])
        ++ ["", "Parameters:"]
        ++ (m.inputs.flatMap fun inp =>
            [inp.name ++ " (" ++ CodeGenerator.normalizeType inp.type ++ "): "
               ++ (if inp.description ≠ "" then inp.description else "Input DataFrame"),
             "    role: input"])
        ++ (m.parameters.flatMap CodeGenerator.docstringParamLines)
        ++ ["", "Returns:"]
        ++ (if m.outputs.isEmpty then ["None"]
            else m.outputs.map fun o =>
              o.name ++ " (" ++ CodeGenerator.normalizeType o.type ++ "): "
                ++ (if o.description ≠ "" then o.description else "Result"))), ?_⟩
  simp [CodeGenerator.buildDocstringLines]

/-- The emitted doc comment text is never empty. -/
theorem buildDocstring_ne_empty (m : AlgorithmMetadata) :
    CodeGenerator.buildDocstring m ≠ "" := by
  obtain ⟨R, hR⟩ := buildDocstringLines_shape m
  intro h
  have hd := congrArg String.data h
  rw [show CodeGenerator.buildDocstring m
      = pyJoin "\n    " (CodeGenerator.buildDocstringLines m) from rfl, hR] at hd
  rw [pyJoin] at hd
  rw [String.data_append, String.data_append] at hd
  simp at hd

/-- Physical line structure of the emitted doc comment: the description
lines, an indent-only line, the indented `Algorithm:` header, then the
rest. -/
theorem pySplitLines_buildDocstring (m : AlgorithmMetadata) :
    ∃ T, pySplitLines (CodeGenerator.buildDocstring m)
      = pySplitLines m.description ++ "    " :: "    Algorithm:" :: T := by
  obtain ⟨R, hR⟩ := buildDocstringLines_shape m
  set r1 : String := "    name: " ++ m.name with hr1
  refine ⟨prefixFirst "    " (pySplitLines (pyJoin "\n    " (r1 :: R))), ?_⟩
  rw [show CodeGenerator.buildDocstring m
      = pyJoin "\n    " (CodeGenerator.buildDocstringLines m) from rfl, hR]
  rw [pySplitLines_join_indent, pySplitLines_join_indent, pySplitLines_join_indent]
  rw [show pySplitLines "" = [""] from rfl,
    show pySplitLines "Algorithm:" = ["Algorithm:"] from by decide]
  rw [show (["Algorithm:"] : List String)
        ++ prefixFirst "    " (pySplitLines (pyJoin "\n    " (r1 :: R)))
      = "Algorithm:" :: prefixFirst "    " (pySplitLines (pyJoin "\n    " (r1 :: R)))
      from rfl]
  rw [show prefixFirst "    "
        ("Algorithm:" :: prefixFirst "    " (pySplitLines (pyJoin "\n    " (r1 :: R))))
      = "    Algorithm:" :: prefixFirst "    " (pySplitLines (pyJoin "\n    " (r1 :: R)))
      from by simp [prefixFirst]]
  rw [show ([""] : List String)
        ++ "    Algorithm:" :: prefixFirst "    " (pySplitLines (pyJoin "\n    " (r1 :: R)))
      = "" :: "    Algorithm:" :: prefixFirst "    " (pySplitLines (pyJoin "\n    " (r1 :: R)))
      from rfl]
  rw [show prefixFirst "    "
        ("" :: "    Algorithm:" :: prefixFirst "    " (pySplitLines (pyJoin "\n    " (r1 :: R))))
      = "    " :: "    Algorithm:" :: prefixFirst "    " (pySplitLines (pyJoin "\n    " (r1 :: R)))
      from by simp [prefixFirst]]

/-- The regenerated doc comment re-parses to an empty parameter
dictionary: its `Algorithm:` header precedes any `Parameters:` line, and
the parameter parser breaks there unconditionally. -/
theorem reparse_params_empty (m : AlgorithmMetadata)
    (hdesc : ∀ l ∈ pySplitLines m.description,
       pyStartsWith (pyStrip l) "Algorithm:" = false
       ∧ pyStartsWith (pyStrip l) "Parameters:" = false
       ∧ pyStartsWith (pyStrip l) "Returns:" = false
       ∧ pyStartsWith (pyStrip l) "Example:" = false) :
    DocstringParser.parseParametersSection (CodeGenerator.buildDocstring m) = [] := by
  unfold DocstringParser.parseParametersSection
  rw [if_neg (buildDocstring_ne_empty m)]
  obtain ⟨T, hT⟩ := pySplitLines_buildDocstring m
  rw [hT]
  rw [show pySplitLines m.description ++ "    " :: "    Algorithm:" :: T
      = (pySplitLines m.description ++ ["    "]) ++ ("    Algorithm:" :: T) by simp]
  rw [parseParamsLines_walk _ _ _ rfl ?_]
  · exact parseParamsLines_break _ _ _ (by decide) (by decide) (by decide)
  · intro l hl
    rcases List.mem_append.mp hl with h | h
    · obtain ⟨hA, hP, hR, hE⟩ := hdesc l h
      exact ⟨hP, hR, hE, hA⟩
    · have hli : l = "    " := by simpa using h
      subst hli
      refine ⟨by decide, by decide, by decide, by decide⟩

/-- The annotation text the generator writes for a kind other than
`pd.DataFrame` resolves back to that kind. -/
theorem inferTypeAnn_writtenAnn (n : String) (d : Option PyVal) (t : String)
    (ht : t ≠ "pd.DataFrame") :
    CodeExtractor.inferTypeAnn
      { name := n,
        annot := some (CodeGenerator.writtenAnnName (CodeGenerator.normalizeType t)),
        default := d }
      = some t := by
  by_cases hdf : t = "DataFrame"
  · subst hdf
    rfl
  · rw [show CodeGenerator.normalizeType t = t from if_neg hdf,
        show CodeGenerator.writtenAnnName t = t from if_neg ht]
    simp only [CodeExtractor.inferTypeAnn]
    split_ifs with h1 h2 h3 h4 h5 <;> simp_all

/-- Type inference over the regenerated signature recovers the kind when
it is not the already-qualified `pd.DataFrame`. -/
theorem inferType_generated (n : String) (d : Option PyVal) (t : String)
    (ht : t ≠ "pd.DataFrame") :
    CodeExtractor.inferType
      { name := n,
        annot := some (CodeGenerator.writtenAnnName (CodeGenerator.normalizeType t)),
        default := d } {} = t := by
  have h1 : CodeExtractor.inferTypeDoc (({} : ParamMeta).type.getD "") = Option.none := rfl
  unfold CodeExtractor.inferType
  rw [h1, inferTypeAnn_writtenAnn n d t ht]

/-- Extraction of one signature parameter with no doc-comment entry and no
override: nothing is filtered out and the record takes its inferred
form. -/
theorem extractOne_empty (p : SigParam) :
    CodeExtractor.extractOne p {} {} = some (reExtractedOfSig p) := rfl

/-- `extract_parameters` with an empty parsed dictionary and no overrides
maps every signature parameter to its rebuilt record. -/
theorem extractParameters_empty_docs (S : List SigParam) :
    CodeExtractor.extractParameters S [] [] = S.map reExtractedOfSig := by
  induction S with
  | nil => rfl
  | cons p S ih =>
    have hcons : CodeExtractor.extractParameters (p :: S) [] []
        = match CodeExtractor.extractOne p {} {} with
          | Option.none => CodeExtractor.extractParameters S [] []
          | some b => b :: CodeExtractor.extractParameters S [] [] := by
      show List.filterMap _ (p :: S) = _
      rw [List.filterMap_cons]
      rfl
    rw [hcons, extractOne_empty p]
    show reExtractedOfSig p :: CodeExtractor.extractParameters S [] [] = _
    rw [ih, List.map_cons]

/-- Re-extraction of the regenerated definition reduces to the doc-free
extraction of the emitted signature: the emitted doc comment contributes
no parameter entries. -/
theorem reExtractParams_eq (m : AlgorithmMetadata)
    (hdesc : ∀ l ∈ pySplitLines m.description,
       pyStartsWith (pyStrip l) "Algorithm:" = false
       ∧ pyStartsWith (pyStrip l) "Parameters:" = false
       ∧ pyStartsWith (pyStrip l) "Returns:" = false
       ∧ pyStartsWith (pyStrip l) "Example:" = false) :
    CodeGenerator.reExtractParams m
      = (CodeGenerator.generatedSigParams m).map reExtractedOfSig := by
  unfold CodeGenerator.reExtractParams
  rw [reparse_params_empty m hdesc, extractParameters_empty_docs]

/-- Names and kinds after one regeneration: exactly the generator
signature order with every kind preserved, provided no kind is the
already-qualified `pd.DataFrame`. -/
theorem reExtract_nameKinds (m : AlgorithmMetadata)
    (hdesc : ∀ l ∈ pySplitLines m.description,
       pyStartsWith (pyStrip l) "Algorithm:" = false
       ∧ pyStartsWith (pyStrip l) "Parameters:" = false
       ∧ pyStartsWith (pyStrip l) "Returns:" = false
       ∧ pyStartsWith (pyStrip l) "Example:" = false)
    (hin : ∀ i ∈ m.inputs, i.type ≠ "pd.DataFrame")
    (hpar : ∀ p ∈ m.parameters, p.type ≠ "pd.DataFrame") :
    CodeGenerator.nameKindsOf (CodeGenerator.reExtractParams m)
      = CodeGenerator.generatorOrderNameKinds m := by
  rw [reExtractParams_eq m hdesc]
  unfold CodeGenerator.nameKindsOf CodeGenerator.generatedSigParams
    CodeGenerator.generatorOrderNameKinds
  simp only [List.map_append, List.map_map]
  congr 1
  · apply List.map_congr_left
    intro i hi
    exact congrArg (fun t => (i.name, t)) (inferType_generated i.name Option.none i.type (hin i hi))
  · congr 1
    all_goals
      apply List.map_congr_left
      intro p hp
      have hp' : p ∈ m.parameters := (List.mem_filter.mp hp).1
      exact congrArg (fun t => (p.name, t))
        (inferType_generated p.name
          (if CodeGenerator.hasSigDefault p then some p.default else Option.none)
          p.type (hpar p hp'))

/-- The generator signature order is a permutation of the entry order. -/
theorem generatorOrder_perm_entry (m : AlgorithmMetadata) :
    (CodeGenerator.generatorOrderNameKinds m).Perm (CodeGenerator.entryNameKinds m) := by
  unfold CodeGenerator.generatorOrderNameKinds CodeGenerator.entryNameKinds
  apply List.Perm.append_left
  apply List.Perm.map
  have h := List.filter_append_perm (fun p => !CodeGenerator.hasSigDefault p) m.parameters
  simpa using h

/-- Roles after one regeneration are recomputed purely from name and kind:
the role recorded in the emitted doc comment is not read back. -/
theorem reExtract_roles (m : AlgorithmMetadata)
    (hdesc : ∀ l ∈ pySplitLines m.description,
       pyStartsWith (pyStrip l) "Algorithm:" = false
       ∧ pyStartsWith (pyStrip l) "Parameters:" = false
       ∧ pyStartsWith (pyStrip l) "Returns:" = false
       ∧ pyStartsWith (pyStrip l) "Example:" = false) :
    (CodeGenerator.reExtractParams m).map (fun q => q.role)
      = (CodeGenerator.reExtractParams m).map
          (fun q => CodeExtractor.inferRole q.name q.type {}) := by
  rw [reExtractParams_eq m hdesc]
  rw [List.map_map, List.map_map]
  rfl

/-- C2.  The round-trip claim fails as stated, but an amended form holds:
for an entry whose description lines contain no section marker and whose
kinds avoid the already-qualified `pd.DataFrame`, regenerating the
definition and re-running extraction preserves every parameter name and
kind — in the generator signature order (inputs, then parameters without
a rendered default, then the rest), a permutation of the entry order —
while every role is recomputed from the name and kind alone, because the
regenerated doc comment places `Algorithm:` before `Parameters:` and the
parameter parser breaks there, so the recorded roles are never read
back. -/
theorem c2_metadata_roundtrip (m : AlgorithmMetadata)
    (hdesc : ∀ l ∈ pySplitLines m.description,
       pyStartsWith (pyStrip l) "Algorithm:" = false
       ∧ pyStartsWith (pyStrip l) "Parameters:" = false
       ∧ pyStartsWith (pyStrip l) "Returns:" = false
       ∧ pyStartsWith (pyStrip l) "Example:" = false)
    (hin : ∀ i ∈ m.inputs, i.type ≠ "pd.DataFrame")
    (hpar : ∀ p ∈ m.parameters, p.type ≠ "pd.DataFrame") :
    CodeGenerator.nameKindsOf (CodeGenerator.reExtractParams m)
        = CodeGenerator.generatorOrderNameKinds m
    ∧ (CodeGenerator.nameKindsOf (CodeGenerator.reExtractParams m)).Perm
        (CodeGenerator.entryNameKinds m)
    ∧ (CodeGenerator.reExtractParams m).map (fun q => q.role)
        = (CodeGenerator.reExtractParams m).map
            (fun q => CodeExtractor.inferRole q.name q.type {}) := by
  refine ⟨reExtract_nameKinds m hdesc hin hpar, ?_, reExtract_roles m hdesc⟩
  rw [reExtract_nameKinds m hdesc hin hpar]
  exact generatorOrder_perm_entry m

/-- C2 counterexample to the claim as stated: the pipeline accepts
`c2Func` and builds an entry, but re-extraction after regeneration yields
parameter triples (name, kind, role) that differ from the original
extraction — the order changes and the `input` role of `s` is lost. -/
theorem c2_counterexample :
    ((LibraryScanner.createMetadataFromFunc c2Func Option.none).map
        (fun m => (CodeGenerator.reExtractParams m).map fun q =>
          (q.name, q.type, q.role))).isSome = true
    ∧ (LibraryScanner.createMetadataFromFunc c2Func Option.none).map
        (fun m => (CodeGenerator.reExtractParams m).map fun q =>
          (q.name, q.type, q.role))
      ≠ some ((CodeExtractor.extractParameters c2Func.sig
          (DocstringParser.parse c2Func.docstring).parameters []).map
            fun q => (q.name, q.type, q.role)) := by
  constructor
  · decide
  · decide

/-- Closed instance of the amended round-trip at the concrete entry
`c2Entry`. -/
theorem c2_metadata_roundtrip_witness :
    CodeGenerator.nameKindsOf (CodeGenerator.reExtractParams c2Entry)
        = CodeGenerator.generatorOrderNameKinds c2Entry
    ∧ (CodeGenerator.nameKindsOf (CodeGenerator.reExtractParams c2Entry)).Perm
        (CodeGenerator.entryNameKinds c2Entry)
    ∧ (CodeGenerator.reExtractParams c2Entry).map (fun q => q.role)
        = (CodeGenerator.reExtractParams c2Entry).map
            (fun q => CodeExtractor.inferRole q.name q.type {}) :=
  c2_metadata_roundtrip c2Entry (by decide) (by decide) (by decide)

end Library

